import Mathlib

set_option maxHeartbeats 1000000

/-!
Shallow embedding of the data-file backup/restore core (src/data.c of
pg_probackup): page header parsing and validation, the page reader with
bounded retry, per-block compression and framing, the per-file backup
writer, the restore reader and the backup stream validator.

Pages and files are byte lists (each entry one byte value).  External
collaborators that live outside this file in the real program - the
engine's per-page checksum, the pglz/zlib codecs, the two CRC32 variants
and the ptrack shared-buffer interface - are oracle functions gathered in
an `Env` record, so every theorem quantifies over their behaviour.
-/

def BLCKSZ : Nat := 8192

def SizeOfPageHeaderData : Nat := 24

def RELSEG_SIZE : Nat := 131072

def PAGE_READ_ATTEMPTS : Nat := 100

def ZLIB_MAGIC : Nat := 120

def BYTES_INVALID : Int := -1

def FILE_NOT_FOUND : Int := -2

def PageBitmapIsEmpty : Int := 0

/-- MAXALIGN rounds a byte count up to the fundamental alignment 8. -/
def MAXALIGN (n : Nat) : Nat := (n + 7) / 8 * 8

/-- Byte of a buffer at an offset (reads as 0 past the end; all real pages
have length BLCKSZ, so in-range accesses are exact). -/
def byteAt (p : List Nat) (i : Nat) : Nat := (p.drop i).headD 0

/-- Little-endian 16-bit field of a page header. -/
def read16 (p : List Nat) (off : Nat) : Nat := byteAt p off + 256 * byteAt p (off + 1)

/-- Little-endian 32-bit field of a page header. -/
def read32 (p : List Nat) (off : Nat) : Nat := read16 p off + 65536 * read16 p (off + 2)

/-- PageXLogRecPtrGet: xlogid (offset 0) in the high half, xrecoff (offset 4)
in the low half. -/
def pd_lsn (p : List Nat) : Nat := read32 p 0 * 4294967296 + read32 p 4

def pd_checksum (p : List Nat) : Nat := read16 p 8

def pd_flags (p : List Nat) : Nat := read16 p 10

def pd_lower (p : List Nat) : Nat := read16 p 12

def pd_upper (p : List Nat) : Nat := read16 p 14

def pd_special (p : List Nat) : Nat := read16 p 16

def pd_pagesize_version (p : List Nat) : Nat := read16 p 18

/-- PageGetPageSize masks the size/version word with 0xFF00. -/
def PageGetPageSize (p : List Nat) : Nat := Nat.land (pd_pagesize_version p) 65280

/-- The page header invariants shared by parse_page and
page_may_be_compressed (pd_flags is 16 bits, so the complement of the
valid-flags mask 0x0007 is 0xFFF8 = 65528). -/
def pageHeaderSane (p : List Nat) : Bool :=
  decide (PageGetPageSize p = BLCKSZ) &&
  decide (Nat.land (pd_flags p) 65528 = 0) &&
  decide (SizeOfPageHeaderData ≤ pd_lower p) &&
  decide (pd_lower p ≤ pd_upper p) &&
  decide (pd_upper p ≤ pd_special p) &&
  decide (pd_special p ≤ BLCKSZ) &&
  decide (pd_special p = MAXALIGN (pd_special p))

/-- parse_page: always extracts the lsn from the header, and reports whether
the header invariants hold. -/
def parse_page (p : List Nat) : Bool × Nat := (pageHeaderSane p, pd_lsn p)

inductive PageState where
  | PAGE_IS_NOT_FOUND
  | PAGE_IS_ZEROED
  | PAGE_IS_VALID
  | PAGE_HEADER_IS_INVALID
  | PAGE_CHECKSUM_MISMATCH
  | PAGE_LSN_FROM_FUTURE
deriving DecidableEq, Repr

inductive CompressAlg where
  | NOT_DEFINED_COMPRESS
  | NONE_COMPRESS
  | PGLZ_COMPRESS
  | ZLIB_COMPRESS
deriving DecidableEq, Repr

/-- Oracle environment for the external collaborators of data.c: the
engine's page checksum, the codec implementations, the rolling CRC32 with
its two polynomials (selected by the Bool flag), the ptrack 1.x
shared-buffer fetch, and the unspecified stack bytes used as frame padding.
Modelled from the spec: these live outside the given source file. -/
structure Env where
  checksum_page : List Nat → Nat → Nat
  zlib_compress : List Nat → Int → Int × List Nat
  pglz_compress : List Nat → Int × List Nat
  zlib_decompress : Nat → List Nat → Int × List Nat
  pglz_decompress : Nat → List Nat → Int × List Nat
  crc_init : Bool → Nat
  crc_comp : Bool → Nat → List Nat → Nat
  crc_fin : Bool → Nat → Nat
  ptrack_get : Nat → Option (List Nat × Nat)
  pad : Nat → Nat

/-- validate_one_page: classify one page.  The Nat result is the lsn output
parameter (initial value page_lsn0, overwritten whenever parse_page ran). -/
def validate_one_page (env : Env) (page : Option (List Nat)) (absolute_blkno : Nat)
    (stop_lsn : Nat) (page_lsn0 : Nat) (checksum_version : Nat) : PageState × Nat :=
  match page with
  | none => (.PAGE_IS_NOT_FOUND, page_lsn0)
  | some p =>
    let pr := parse_page p
    if pr.1 = false then
      if (p.take BLCKSZ).all (fun b => b == 0) then (.PAGE_IS_ZEROED, pr.2)
      else (.PAGE_HEADER_IS_INVALID, pr.2)
    else if checksum_version ≠ 0 ∧ env.checksum_page p absolute_blkno ≠ pd_checksum p then
      (.PAGE_CHECKSUM_MISMATCH, pr.2)
    else if 0 < stop_lsn ∧ stop_lsn < pr.2 then
      (.PAGE_LSN_FROM_FUTURE, pr.2)
    else
      (.PAGE_IS_VALID, pr.2)

/-- page_may_be_compressed: heuristic for the pre-2.0.23 framing bug. -/
def page_may_be_compressed (page : List Nat) (alg : CompressAlg) (backup_version : Nat) : Bool :=
  if pageHeaderSane page = false then
    if 20023 ≤ backup_version then false
    else if alg = .ZLIB_COMPRESS ∧ byteAt page 0 ≠ ZLIB_MAGIC then false
    else true
  else false

/-- do_compress: dispatch to the codec oracles; NONE and NOT_DEFINED always
fail with -1.  Result is (return value, destination buffer contents). -/
def do_compress (env : Env) (src : List Nat) (alg : CompressAlg) (level : Int) : Int × List Nat :=
  match alg with
  | .NONE_COMPRESS => (-1, [])
  | .NOT_DEFINED_COMPRESS => (-1, [])
  | .ZLIB_COMPRESS => env.zlib_compress src level
  | .PGLZ_COMPRESS => env.pglz_compress src

/-- do_decompress: the callee may read only src_size bytes of the source, so
the oracle receives the truncated source. -/
def do_decompress (env : Env) (dst_size : Nat) (src : List Nat) (src_size : Nat)
    (alg : CompressAlg) : Int × List Nat :=
  match alg with
  | .NONE_COMPRESS => (-1, [])
  | .NOT_DEFINED_COMPRESS => (-1, [])
  | .ZLIB_COMPRESS => env.zlib_decompress dst_size (src.take src_size)
  | .PGLZ_COMPRESS => env.pglz_decompress dst_size (src.take src_size)

inductive BackupMode where
  | BACKUP_MODE_INVALID
  | BACKUP_MODE_DIFF_PAGE
  | BACKUP_MODE_DIFF_PTRACK
  | BACKUP_MODE_DIFF_DELTA
  | BACKUP_MODE_FULL
deriving DecidableEq, Repr

/-- Result of one fio_pread of a block: 0 bytes (truncated), negative
(I/O error), a short read, or a full BLCKSZ page image. -/
inductive ReadResult where
  | rzero
  | rerr
  | rshort (n : Nat)
  | rfull (p : List Nat)
deriving DecidableEq, Repr

/-- Return states of prepare_page; FatalError stands for elog(ERROR). -/
inductive PrepareResult where
  | PageIsOk (page : List Nat)
  | PageIsTruncated
  | SkipCurrentPage
  | PageIsCorrupted
  | FatalError
deriving DecidableEq, Repr

inductive ReadLoopOut where
  | truncated
  | ioerror
  | okPage (p : List Nat)
  | deltaValid (p : List Nat) (lsn : Nat)
  | invalid
deriving DecidableEq, Repr

/-- The bounded re-read loop of prepare_page.  `reads` maps the attempt
number to the outcome of that positional read; fuel starts at
PAGE_READ_ATTEMPTS.  A ZEROED page, or a VALID page outside DELTA mode,
returns PageIsOk immediately; a VALID page in DELTA mode leaves the loop
with the page and its lsn; header or checksum failures retry. -/
def page_read_loop (env : Env) (reads : Nat → ReadResult) (absolute_blknum : Nat)
    (checksum_version : Nat) (backup_mode : BackupMode) (attempt fuel : Nat) : ReadLoopOut :=
  match fuel with
  | 0 => .invalid
  | fuel + 1 =>
    match reads attempt with
    | .rzero => .truncated
    | .rerr => .ioerror
    | .rshort _ =>
      page_read_loop env reads absolute_blknum checksum_version backup_mode (attempt + 1) fuel
    | .rfull p =>
      match validate_one_page env (some p) absolute_blknum 0 0 checksum_version with
      | (.PAGE_IS_ZEROED, _) => .okPage p
      | (.PAGE_IS_VALID, lsn) =>
        if backup_mode = .BACKUP_MODE_DIFF_DELTA then .deltaValid p lsn else .okPage p
      | _ =>
        page_read_loop env reads absolute_blknum checksum_version backup_mode (attempt + 1) fuel

/-- Write a fresh checksum into bytes 8..9 of a page (little endian). -/
def setChecksum (p : List Nat) (c : Nat) : List Nat :=
  (p.set 8 (c % 256)).set 9 (c / 256 % 256)

/-- Final DELTA-mode check of prepare_page: skip the block when the file
existed in the parent backup and the page lsn is nonzero and older than the
parent backup's start lsn. -/
def delta_skip_check (exists_in_prev : Bool) (prev_backup_start_lsn : Nat)
    (backup_mode : BackupMode) (page : List Nat) (page_lsn : Nat) : PrepareResult :=
  if backup_mode = .BACKUP_MODE_DIFF_DELTA ∧ exists_in_prev = true ∧ page_lsn ≠ 0 ∧
      page_lsn < prev_backup_start_lsn then
    .SkipCurrentPage
  else
    .PageIsOk page

/-- Tail of prepare_page after the read loop: the ptrack 1.x shared-buffer
path (only for PTRACK mode with tracker versions 15..19), then the DELTA
skip check.  `page`/`page_lsn` carry the current buffer contents and lsn. -/
def prepare_page_tail (env : Env) (exists_in_prev : Bool) (prev_backup_start_lsn : Nat)
    (backup_mode : BackupMode) (checksum_version : Nat) (ptrack_version_num : Nat)
    (absolute_blknum : Nat) (page : List Nat) (page_lsn : Nat) : PrepareResult :=
  if backup_mode = .BACKUP_MODE_DIFF_PTRACK ∧ 15 ≤ ptrack_version_num ∧
      ptrack_version_num < 20 then
    match env.ptrack_get absolute_blknum with
    | none => .PageIsTruncated
    | some (pp, page_size) =>
      if page_size ≠ BLCKSZ then .FatalError
      else
        match validate_one_page env (some pp) absolute_blknum 0 0 checksum_version with
        | (.PAGE_IS_ZEROED, _) => .PageIsOk pp
        | (.PAGE_HEADER_IS_INVALID, _) => .FatalError
        | (_, lsn2) =>
          let pp2 := if checksum_version ≠ 0 then
              setChecksum pp (env.checksum_page pp absolute_blknum)
            else pp
          delta_skip_check exists_in_prev prev_backup_start_lsn backup_mode pp2 lsn2
  else
    delta_skip_check exists_in_prev prev_backup_start_lsn backup_mode page page_lsn

/-- prepare_page: retrieve one block.  `page0` is the incoming contents of
the caller-provided page buffer (relevant only on the path that never reads
or fetches).  The read loop runs unless the mode is PTRACK with a 1.x
tracker; an exhausted loop is fatal in strict mode and PageIsCorrupted
otherwise; in non-strict mode a DELTA-valid page returns immediately. -/
def prepare_page (env : Env) (reads : Nat → ReadResult) (exists_in_prev : Bool)
    (prev_backup_start_lsn : Nat) (backup_mode : BackupMode) (strict : Bool)
    (checksum_version : Nat) (ptrack_version_num : Nat) (absolute_blknum : Nat)
    (page0 : List Nat) : PrepareResult :=
  if backup_mode ≠ .BACKUP_MODE_DIFF_PTRACK ∨ 20 ≤ ptrack_version_num then
    match page_read_loop env reads absolute_blknum checksum_version backup_mode 0
        PAGE_READ_ATTEMPTS with
    | .truncated => .PageIsTruncated
    | .ioerror => .FatalError
    | .okPage p => .PageIsOk p
    | .invalid => if strict then .FatalError else .PageIsCorrupted
    | .deltaValid p lsn =>
      if strict = false then .PageIsOk p
      else
        prepare_page_tail env exists_in_prev prev_backup_start_lsn backup_mode
          checksum_version ptrack_version_num absolute_blknum p lsn
  else
    prepare_page_tail env exists_in_prev prev_backup_start_lsn backup_mode
      checksum_version ptrack_version_num absolute_blknum page0 0

/-- One stored block of a backup stream: the BackupPageHeader fields plus
the payload bytes that follow it in the stream file. -/
structure BackupPageFrame where
  block : Nat
  compressed_size : Int
  payload : List Nat
deriving DecidableEq, Repr

def le16 (n : Nat) : List Nat := [n % 256, n / 256 % 256]

def le32 (n : Nat) : List Nat := [n % 256, n / 256 % 256, n / 65536 % 256, n / 16777216 % 256]

/-- Two's-complement little-endian encoding of an int32. -/
def int32bytes (i : Int) : List Nat := le32 (i % 4294967296).toNat

/-- On-disk bytes of a BackupPageHeader. -/
def headerBytes (block : Nat) (compressed_size : Int) : List Nat :=
  le32 block ++ int32bytes compressed_size

/-- On-disk bytes of a whole frame (header plus payload), exactly the
write_buffer handed to the rolling CRC and fwrite. -/
def frameBytes (f : BackupPageFrame) : List Nat :=
  headerBytes f.block f.compressed_size ++ f.payload

/-- Unspecified stack bytes filling the alignment gap of a frame. -/
def padList (env : Env) (k : Nat) : List Nat := (List.range k).map env.pad

structure EmitResult where
  frame : BackupPageFrame
  crc : Nat
  write_buffer_size : Nat
deriving Repr

/-- compress_and_backup_page: compress one page; if the result size c
satisfies 0 < c < BLCKSZ emit {block, c} plus MAXALIGN(c) payload bytes,
otherwise emit {block, BLCKSZ} plus the raw page; update the rolling file
CRC over the emitted bytes. -/
def compress_and_backup_page (env : Env) (blknum : Nat) (crc : Nat) (page : List Nat)
    (calg : CompressAlg) (clevel : Int) : EmitResult :=
  match do_compress env page calg clevel with
  | (c, comp) =>
    if 0 < c ∧ c < (BLCKSZ : Int) then
      ⟨⟨blknum, c, comp.take c.toNat ++ padList env (MAXALIGN c.toNat - c.toNat)⟩,
       env.crc_comp true crc
         (frameBytes ⟨blknum, c, comp.take c.toNat ++ padList env (MAXALIGN c.toNat - c.toNat)⟩),
       8 + MAXALIGN c.toNat⟩
    else
      ⟨⟨blknum, (BLCKSZ : Int), page⟩,
       env.crc_comp true crc (frameBytes ⟨blknum, (BLCKSZ : Int), page⟩), 8 + BLCKSZ⟩

/-- The datapagemap of one file: its bitmapsize and, when allocated, the
bits indexed by block number. -/
structure datapagemap where
  bitmapsize : Int
  bitmap : Option (List Bool)
deriving DecidableEq, Repr

/-- Modelled from the spec: the datapagemap iterator (datapagemap.c is not
part of the given source) yields the set block numbers in ascending
order. -/
def bitIndices (bm : List Bool) : List Nat :=
  (List.range bm.length).filter (fun i => bm.getD i false)

/-- The fields of pgFile that the data-file code reads or writes. -/
structure pgFile where
  size : Nat
  segno : Nat
  n_blocks : Int
  read_size : Nat
  write_size : Int
  uncompressed_size : Int
  crc : Nat
  compress_alg : CompressAlg
  exists_in_prev : Bool
  pagemap : datapagemap
  pagemap_isabsent : Bool
deriving DecidableEq, Repr

/-- Abstract outcome of the remote agent fio_send_pages (external code):
either one of its fatal error codes, or the counters, crc and stream it
produced. -/
structure RemoteOk where
  nread : Nat
  wsize : Int
  unc : Int
  crc : Nat
  frames : List BackupPageFrame
deriving DecidableEq, Repr

inductive RemoteOutcome where
  | err
  | ok (r : RemoteOk)
deriving DecidableEq, Repr

/-- All inputs of one backup_data_file call that are not pgFile fields:
the oracle environment, the per-block read oracle (block number, attempt
number), and the plain parameters of the C function.  `srcFound` is whether
fio_fopen of the source succeeds (false = ENOENT); `remote` is none for a
local source file. -/
structure BackupArgs where
  env : Env
  reads : Nat → Nat → ReadResult
  prev_backup_start_lsn : Nat
  backup_mode : BackupMode
  calg : CompressAlg
  clevel : Int
  checksum_version : Nat
  ptrack_version_num : Nat
  page0 : List Nat
  srcFound : Bool
  remote : Option RemoteOutcome
  missing_ok : Bool

/-- Loop-carried counters of the local block loop of backup_data_file. -/
structure LoopSt where
  crc : Nat
  read_size : Nat
  write_size : Int
  uncompressed_size : Int
  calg : CompressAlg
deriving DecidableEq, Repr

inductive StepOut where
  | fatal
  | brk (st : LoopSt)
  | cont (st : LoopSt) (fs : List BackupPageFrame)
deriving DecidableEq, Repr

/-- One iteration body of the local block loop: prepare the page, then
count a skip, emit a frame, or stop/fail.  PageIsCorrupted cannot occur
with strict=true; mirroring the release build its Assert is a no-op and
the loop just counts the block as read. -/
def backup_step (a : BackupArgs) (f : pgFile) (blknum : Nat) (st : LoopSt) : StepOut :=
  match prepare_page a.env (a.reads blknum) f.exists_in_prev a.prev_backup_start_lsn
      a.backup_mode true a.checksum_version a.ptrack_version_num
      (f.segno * RELSEG_SIZE + blknum) a.page0 with
  | .PageIsTruncated => .brk st
  | .SkipCurrentPage => .cont { st with read_size := st.read_size + BLCKSZ } []
  | .PageIsOk p =>
    let e := compress_and_backup_page a.env blknum st.crc p a.calg a.clevel
    .cont ⟨e.crc, st.read_size + BLCKSZ, st.write_size + (e.write_buffer_size : Int),
           st.uncompressed_size + (BLCKSZ : Int), a.calg⟩ [e.frame]
  | .PageIsCorrupted => .cont { st with read_size := st.read_size + BLCKSZ } []
  | .FatalError => .fatal

/-- The local block loop without a pagemap: blknum runs from 0 while it is
below nblocks; fuel is nblocks at the top call. -/
def backup_seq_loop (a : BackupArgs) (f : pgFile) (nblocks : Nat) (blknum fuel : Nat)
    (st : LoopSt) : Option (LoopSt × List BackupPageFrame) :=
  match fuel with
  | 0 => some (st, [])
  | fuel + 1 =>
    if blknum < nblocks then
      match backup_step a f blknum st with
      | .fatal => none
      | .brk st2 => some (st2, [])
      | .cont st2 fs =>
        match backup_seq_loop a f nblocks (blknum + 1) fuel st2 with
        | none => none
        | some (st3, fs2) => some (st3, fs ++ fs2)
    else some (st, [])

/-- The local block loop driven by the pagemap iterator: `blknum` is the
block fetched by the previous datapagemap_next and `rest` the blocks still
to come; the while condition blknum < nblocks is rechecked each time. -/
def backup_map_loop (a : BackupArgs) (f : pgFile) (nblocks : Nat) (blknum : Nat)
    (rest : List Nat) (st : LoopSt) : Option (LoopSt × List BackupPageFrame) :=
  if blknum < nblocks then
    match backup_step a f blknum st with
    | .fatal => none
    | .brk st2 => some (st2, [])
    | .cont st2 fs =>
      match rest with
      | [] => some (st2, fs)
      | b :: rest2 =>
        match backup_map_loop a f nblocks b rest2 st2 with
        | none => none
        | some (st3, fs2) => some (st3, fs ++ fs2)
  else some (st, [])

/-- The observable outcome of backup_data_file: the updated pgFile, the
final contents of the output stream file (none when it was never created
or was unlinked), and whether the source/output files were opened. -/
structure BackupResult where
  file : pgFile
  frames : Option (List BackupPageFrame)
  openedSrc : Bool
  openedOut : Bool
deriving DecidableEq, Repr

/-- Shared tail of backup_data_file after the block pass: refresh n_blocks
for FULL and DELTA, finalize the crc, flag an unchanged incremental file
with BYTES_INVALID, and unlink the output when write_size is not
positive. -/
def backup_finish (a : BackupArgs) (f : pgFile) (fs : List BackupPageFrame) : BackupResult :=
  let f1 := if a.backup_mode = .BACKUP_MODE_FULL ∨ a.backup_mode = .BACKUP_MODE_DIFF_DELTA then
      { f with n_blocks := ((f.read_size / BLCKSZ : Nat) : Int) }
    else f
  let f2 := { f1 with crc := a.env.crc_fin true f1.crc }
  let f3 := if a.backup_mode ≠ .BACKUP_MODE_FULL ∧ f2.exists_in_prev = true ∧
      f2.write_size = 0 ∧ 0 < f2.n_blocks then
      { f2 with write_size := BYTES_INVALID }
    else f2
  if f3.write_size ≤ 0 then ⟨f3, none, true, true⟩
  else ⟨f3, some fs, true, true⟩

/-- backup_data_file: the whole per-file backup pass.  Returns none on any
elog(ERROR) path. -/
def backup_data_file (a : BackupArgs) (file0 : pgFile) : Option BackupResult :=
  let nblocks := file0.size / BLCKSZ
  let f1 : pgFile := { file0 with n_blocks := (nblocks : Int) }
  if (a.backup_mode = .BACKUP_MODE_DIFF_PAGE ∨ a.backup_mode = .BACKUP_MODE_DIFF_PTRACK) ∧
      f1.pagemap.bitmapsize = PageBitmapIsEmpty ∧ f1.exists_in_prev = true ∧
      f1.pagemap_isabsent = false then
    some ⟨{ f1 with write_size := BYTES_INVALID }, none, false, false⟩
  else
    let f2 : pgFile :=
      { f1 with
        read_size := 0
        write_size := 0
        uncompressed_size := 0
        crc := a.env.crc_init true }
    if a.srcFound = false then
      let f3 : pgFile := { f2 with crc := a.env.crc_fin true f2.crc }
      if a.missing_ok then
        some ⟨{ f3 with write_size := FILE_NOT_FOUND }, none, false, false⟩
      else none
    else
      let use_pagemap : Bool :=
        !(f2.pagemap.bitmapsize == PageBitmapIsEmpty) && !f2.pagemap_isabsent &&
        f2.exists_in_prev && f2.pagemap.bitmap.isSome
      match a.remote with
      | some .err => none
      | some (.ok r) =>
        some (backup_finish a
          { f2 with
            read_size := r.nread * BLCKSZ
            write_size := r.wsize
            uncompressed_size := r.unc
            crc := r.crc } r.frames)
      | none =>
        let init : LoopSt := ⟨f2.crc, 0, 0, 0, f2.compress_alg⟩
        let res :=
          if use_pagemap then
            match bitIndices (f2.pagemap.bitmap.getD []) with
            | [] => backup_map_loop a f2 nblocks 0 [] init
            | b :: rest => backup_map_loop a f2 nblocks b rest init
          else
            backup_seq_loop a f2 nblocks 0 nblocks init
        match res with
        | none => none
        | some (st, fs) =>
          some (backup_finish a
            { f2 with
              read_size := st.read_size
              write_size := st.write_size
              uncompressed_size := st.uncompressed_size
              crc := st.crc
              compress_alg := st.calg } fs)

/-- ftruncate on the destination byte string: shrink, or extend with
zeros. -/
def truncateTo (len : Nat) (d : List Nat) : List Nat :=
  if len ≤ d.length then d.take len else d ++ List.replicate (len - d.length) 0

/-- Positional write into the destination byte string, zero-filling any gap
before the offset. -/
def writeAt (d : List Nat) (off : Nat) (bs : List Nat) : List Nat :=
  let d2 := if d.length < off then d ++ List.replicate (off - d.length) 0 else d
  d2.take off ++ bs ++ d2.drop (off + bs.length)

structure RestoreSt where
  blknum : Nat
  write_len : Nat
  dest : List Nat
deriving DecidableEq, Repr

/-- The frame-replay loop of restore_data_file_internal over one backup's
stream.  Returns none on any elog(ERROR) path. -/
def restore_loop (env : Env) (calg : CompressAlg) (backup_version : Nat) (nblocks : Int)
    (frames : List BackupPageFrame) (st : RestoreSt) : Option RestoreSt :=
  match frames with
  | [] => some st
  | fr :: rest =>
    if fr.block = 0 ∧ fr.compressed_size = 0 then
      restore_loop env calg backup_version nblocks rest st
    else if fr.block < st.blknum then none
    else
      let blknum := fr.block
      if fr.compressed_size = -1 then
        some ⟨blknum, st.write_len, truncateTo (blknum * BLCKSZ) st.dest⟩
      else if 0 < nblocks ∧ nblocks ≤ (blknum : Int) then
        some { st with blknum := blknum }
      else if (BLCKSZ : Int) < fr.compressed_size then none
      else if fr.payload.length ≠ MAXALIGN fr.compressed_size.toNat then none
      else
        let is_compressed := fr.compressed_size ≠ (BLCKSZ : Int) ∨
          page_may_be_compressed fr.payload calg backup_version = true
        if is_compressed then
          let dr := do_decompress env BLCKSZ fr.payload fr.compressed_size.toNat calg
          if dr.1 ≠ (BLCKSZ : Int) then none
          else
            restore_loop env calg backup_version nblocks rest
              ⟨blknum, st.write_len + BLCKSZ, writeAt st.dest (blknum * BLCKSZ) (dr.2.take BLCKSZ)⟩
        else
          restore_loop env calg backup_version nblocks rest
            ⟨blknum, st.write_len + BLCKSZ, writeAt st.dest (blknum * BLCKSZ) (fr.payload.take BLCKSZ)⟩

/-- restore_data_file_internal: replay one backup's stream onto the
destination byte string; returns the new destination and the number of
bytes written. -/
def restore_data_file_internal (env : Env) (file : pgFile) (backup_version : Nat)
    (nblocks : Int) (frames : List BackupPageFrame) (dest0 : List Nat) :
    Option (List Nat × Nat) :=
  match restore_loop env file.compress_alg backup_version nblocks frames ⟨0, 0, dest0⟩ with
  | none => none
  | some st => some (st.dest, st.write_len)

/-- CRC polynomial selection of check_file_pages: the crc32c polynomial is
used for producer versions at most 2.0.21 or at least 2.0.25. -/
def use_crc32c (backup_version : Nat) : Bool :=
  decide (backup_version ≤ 20021) || decide (20025 ≤ backup_version)

structure CheckSt where
  crc : Nat
  is_valid : Bool
deriving DecidableEq, Repr

/-- The frame-replay loop of check_file_pages: accumulate the rolling crc
over header and payload bytes, replay each frame as restore would, and run
validate_one_page on the reconstructed page.  none = an early return-false
path (framing/decompress error); otherwise the final crc and validity flag.
The source declares blknum inside the loop body and initializes it to 0 on
every iteration, so its out-of-order comparison header.block < blknum is
against that fresh 0 and, header.block being unsigned, never aborts; blknum
is therefore a per-iteration local here, not loop state. -/
def check_loop (env : Env) (f : pgFile) (stop_lsn : Nat) (checksum_version : Nat)
    (backup_version : Nat) (u : Bool) (frames : List BackupPageFrame) (st : CheckSt) :
    Option CheckSt :=
  match frames with
  | [] => some st
  | fr :: rest =>
    let blknum0 : Nat := 0
    let crc1 := env.crc_comp u st.crc (headerBytes fr.block fr.compressed_size)
    if fr.block = 0 ∧ fr.compressed_size = 0 then
      check_loop env f stop_lsn checksum_version backup_version u rest { st with crc := crc1 }
    else if fr.block < blknum0 then none
    else
      let blknum := fr.block
      if fr.compressed_size = -1 then
        check_loop env f stop_lsn checksum_version backup_version u rest
          { st with crc := crc1 }
      else if fr.payload.length ≠ MAXALIGN fr.compressed_size.toNat then none
      else
        let crc2 := env.crc_comp u crc1 fr.payload
        let validated :=
          if fr.compressed_size ≠ (BLCKSZ : Int) ∨
              page_may_be_compressed fr.payload f.compress_alg backup_version = true then
            let dr := do_decompress env BLCKSZ fr.payload fr.compressed_size.toNat f.compress_alg
            if dr.1 ≠ (BLCKSZ : Int) then
              if fr.compressed_size = (BLCKSZ : Int) then some false
              else none
            else
              some (decide (¬((validate_one_page env (some (dr.2.take BLCKSZ))
                (f.segno * RELSEG_SIZE + blknum) stop_lsn 0 checksum_version).1 =
                  .PAGE_HEADER_IS_INVALID ∨
                (validate_one_page env (some (dr.2.take BLCKSZ))
                (f.segno * RELSEG_SIZE + blknum) stop_lsn 0 checksum_version).1 =
                  .PAGE_CHECKSUM_MISMATCH)))
          else
            some (decide (¬((validate_one_page env (some fr.payload)
              (f.segno * RELSEG_SIZE + blknum) stop_lsn 0 checksum_version).1 =
                .PAGE_HEADER_IS_INVALID ∨
              (validate_one_page env (some fr.payload)
              (f.segno * RELSEG_SIZE + blknum) stop_lsn 0 checksum_version).1 =
                .PAGE_CHECKSUM_MISMATCH)))
        match validated with
        | none => none
        | some ok =>
          check_loop env f stop_lsn checksum_version backup_version u rest
            ⟨crc2, st.is_valid && ok⟩

/-- check_file_pages: validate one stored backup stream file.  `found` is
whether fopen succeeds (ENOENT yields false with a warning). -/
def check_file_pages (env : Env) (f : pgFile) (found : Bool)
    (frames : List BackupPageFrame) (stop_lsn : Nat) (checksum_version : Nat)
    (backup_version : Nat) : Bool :=
  let u := use_crc32c backup_version
  if found = false then false
  else
    match check_loop env f stop_lsn checksum_version backup_version u frames
        ⟨env.crc_init u, true⟩ with
    | none => false
    | some st =>
      let crc := env.crc_fin u st.crc
      st.is_valid && (crc == f.crc)

/-- Specification-side restatement of the classification rules of the page
validator, written from the spec text (rules 1-5 in order) to compare with
the source translation validate_one_page. -/
def validate_one_page_spec (env : Env) (page : Option (List Nat)) (absolute_blkno : Nat)
    (stop_lsn : Nat) (checksum_version : Nat) : PageState :=
  match page with
  | none => .PAGE_IS_NOT_FOUND
  | some p =>
    if pageHeaderSane p = true then
      if checksum_version ≠ 0 ∧ env.checksum_page p absolute_blkno ≠ pd_checksum p then
        .PAGE_CHECKSUM_MISMATCH
      else if 0 < stop_lsn ∧ stop_lsn < pd_lsn p then .PAGE_LSN_FROM_FUTURE
      else .PAGE_IS_VALID
    else if (p.take BLCKSZ).all (fun b => b == 0) then .PAGE_IS_ZEROED
    else .PAGE_HEADER_IS_INVALID

/-- Block b of a source file, as fio_pread reads it. -/
def pageAt (src : List Nat) (b : Nat) : List Nat := (src.drop (b * BLCKSZ)).take BLCKSZ

/-- Deterministic read oracle of an unchanging source file: every attempt
returns the bytes at the block's offset. -/
def readsFrom (src : List Nat) : Nat → Nat → ReadResult := fun blk _ =>
  let chunk := pageAt src blk
  if chunk.length = 0 then .rzero
  else if chunk.length < BLCKSZ then .rshort chunk.length
  else .rfull chunk

/-- The frame compress_and_backup_page emits for one page (the frame does
not depend on the incoming crc). -/
def frameFor (env : Env) (calg : CompressAlg) (clevel : Int) (b : Nat) (p : List Nat) :
    BackupPageFrame :=
  (compress_and_backup_page env b 0 p calg clevel).frame

/-- The frames a whole-file pass emits for blocks b, b+1, ..., b+m-1. -/
def framesFor (env : Env) (calg : CompressAlg) (clevel : Int) (src : List Nat) (b m : Nat) :
    List BackupPageFrame :=
  (List.range' b m).map (fun j => frameFor env calg clevel j (pageAt src j))

/-- Round-trip property: backing up file0 and replaying the resulting
single-backup chain onto a fresh destination reproduces the source bytes
(a file whose stream was never created or was unlinked restores to the
empty source it came from). -/
def roundTripOk (a : BackupArgs) (bv : Nat) (file0 : pgFile) (src : List Nat) : Prop :=
  match backup_data_file a file0 with
  | none => False
  | some r =>
    match r.frames with
    | none => src = []
    | some fs =>
      restore_data_file_internal a.env r.file bv r.file.n_blocks fs [] = some (src, src.length)

/-- A page of all zero bytes. -/
def zeroPage : List Nat := List.replicate BLCKSZ 0

/-- A page whose header is invalid and which is not zeroed. -/
def badPage : List Nat := 1 :: List.replicate (BLCKSZ - 1) 0

/-- A page with a well-formed header (lower 24, upper = special = 8192,
size/version word 0x2004) and the given xrecoff as its lsn low half. -/
def mkValidPage (xrecoff : Nat) : List Nat :=
  le32 0 ++ le32 xrecoff ++ le16 0 ++ le16 0 ++ le16 24 ++ le16 8192 ++ le16 8192 ++
  le16 8196 ++ List.replicate (BLCKSZ - 20) 0

def goodPage : List Nat := mkValidPage 1

def lsnZeroPage : List Nat := mkValidPage 0

/-- A concrete oracle environment for witnesses: checksums all zero, both
codecs always fail, the rolling crc adds byte counts, padding is zero. -/
def env0 : Env :=
  ⟨fun _ _ => 0, fun _ _ => (-1, []), fun _ => (-1, []), fun _ _ => (-1, []),
   fun _ _ => (-1, []), fun _ => 0, fun _ c bs => c + bs.length, fun _ c => c,
   fun _ => none, fun _ => 0⟩

/-- A concrete environment whose pglz compressor emits a 4-byte payload for
every page and whose decompressor restores goodPage from it. -/
def envC : Env :=
  ⟨fun _ _ => 0, fun _ _ => (-1, []), fun _ => (4, [9, 9, 9, 9]), fun _ _ => (-1, []),
   fun _ src => if src = [9, 9, 9, 9] then ((BLCKSZ : Int), goodPage) else (-1, []),
   fun _ => 0, fun _ c bs => c + bs.length, fun _ c => c, fun _ => none, fun _ => 0⟩

/-- Two-block source file of valid pages for the backup witnesses. -/
def wSrc2 : List Nat := mkValidPage 1 ++ mkValidPage 2

/-- Witness arguments: local FULL backup of wSrc2 with no compression. -/
def wArgsFull : BackupArgs :=
  ⟨env0, readsFrom wSrc2, 0, .BACKUP_MODE_FULL, .NONE_COMPRESS, 0, 0, 0, [], true, none, false⟩

/-- Witness file record for the FULL backup of wSrc2: absent pagemap. -/
def wFileFull : pgFile :=
  ⟨16384, 0, 0, 0, 0, 0, 0, .NONE_COMPRESS, false, ⟨0, none⟩, true⟩

/-- Witness arguments: local PAGE backup of wSrc2 with a full pagemap. -/
def wArgsPage : BackupArgs :=
  ⟨env0, readsFrom wSrc2, 0, .BACKUP_MODE_DIFF_PAGE, .NONE_COMPRESS, 0, 0, 0, [], true, none,
   false⟩

/-- Witness file record for the PAGE backup of wSrc2: a pagemap selecting
both blocks. -/
def wFilePage : pgFile :=
  ⟨16384, 0, 0, 0, 0, 0, 0, .NONE_COMPRESS, true, ⟨2, some [true, true]⟩, false⟩

/-- Witness file: single valid block, absent pagemap, FULL mode. -/
def wFileFull1 : pgFile :=
  ⟨8192, 0, 0, 0, 0, 0, 0, .NONE_COMPRESS, false, ⟨0, none⟩, true⟩

/-- Witness file: single valid block, pagemap selecting block 0, PAGE mode. -/
def wFilePage1 : pgFile :=
  ⟨8192, 0, 0, 0, 0, 0, 0, .NONE_COMPRESS, true, ⟨1, some [true]⟩, false⟩

/-- Witness arguments for the unchanged-detection early return (PAGE mode). -/
def wArgsC5 : BackupArgs :=
  ⟨env0, fun _ _ => .rzero, 0, .BACKUP_MODE_DIFF_PAGE, .NONE_COMPRESS, 0, 0, 0, [], true,
   none, false⟩

/-- Witness file for unchanged detection: empty non-absent pagemap, exists in
the parent backup, with nonzero read_size and crc to observe the frame. -/
def wFileC5 : pgFile :=
  ⟨16384, 0, 0, 7, 7, 7, 99, .NONE_COMPRESS, true, ⟨0, none⟩, false⟩

/-- Witness read oracle: a torn read on the first attempt, then a valid page. -/
def wReads1 : Nat → ReadResult :=
  fun i => if i = 0 then .rfull badPage else .rfull goodPage

/-- Witness file for the crc mismatch: recorded crc 1. -/
def wFileCrc : pgFile :=
  ⟨0, 0, 0, 0, 0, 0, 1, .NONE_COMPRESS, false, ⟨0, none⟩, true⟩

theorem le_MAXALIGN (n : Nat) : n ≤ MAXALIGN n := by
  unfold MAXALIGN
  omega

theorem MAXALIGN_BLCKSZ : MAXALIGN BLCKSZ = BLCKSZ := by decide

theorem length_truncateTo (len : Nat) (d : List Nat) : (truncateTo len d).length = len := by
  unfold truncateTo
  split <;> simp <;> omega

theorem writeAt_eq_append (d bs : List Nat) : writeAt d d.length bs = d ++ bs := by
  unfold writeAt
  simp [List.drop_eq_nil_of_le]

theorem emit_block (env : Env) (b crc : Nat) (p : List Nat) (calg : CompressAlg) (cl : Int) :
    (compress_and_backup_page env b crc p calg cl).frame.block = b := by
  unfold compress_and_backup_page
  rcases hco : do_compress env p calg cl with ⟨c, o⟩
  split
  split <;> rfl

theorem emit_frame_crc_indep (env : Env) (b crc : Nat) (p : List Nat) (calg : CompressAlg)
    (cl : Int) :
    (compress_and_backup_page env b crc p calg cl).frame = frameFor env calg cl b p ∧
    (compress_and_backup_page env b crc p calg cl).write_buffer_size =
      (compress_and_backup_page env b 0 p calg cl).write_buffer_size := by
  unfold frameFor compress_and_backup_page
  rcases hco : do_compress env p calg cl with ⟨c, o⟩
  split
  split <;> exact ⟨rfl, rfl⟩

theorem emit_wbs_pos (env : Env) (b crc : Nat) (p : List Nat) (calg : CompressAlg) (cl : Int) :
    1 ≤ (compress_and_backup_page env b crc p calg cl).write_buffer_size := by
  unfold compress_and_backup_page
  rcases hco : do_compress env p calg cl with ⟨c, o⟩
  split
  split
  · show 1 ≤ 8 + MAXALIGN _
    omega
  · show 1 ≤ 8 + BLCKSZ
    omega

theorem pmbc_false_of_sane (p : List Nat) (alg : CompressAlg) (bv : Nat)
    (h : pageHeaderSane p = true) : page_may_be_compressed p alg bv = false := by
  unfold page_may_be_compressed
  simp [h]

theorem sane_of_valid (env : Env) (p : List Nat) (abs sl l0 cv : Nat)
    (h : (validate_one_page env (some p) abs sl l0 cv).1 = .PAGE_IS_VALID) :
    pageHeaderSane p = true := by
  cases hsv : pageHeaderSane p with
  | true => rfl
  | false =>
    exfalso
    simp only [validate_one_page, parse_page, hsv] at h
    split at h
    · split at h <;> simp at h
    · simp_all

/-- C2: validate_one_page classifies pages by exactly the spec's ordered
rules: a null page is NOT_FOUND; a page failing the header invariants is
ZEROED when all BLCKSZ bytes are zero and HEADER_INVALID otherwise; next a
checksum mismatch (when checksums are enabled) is CHECKSUM_MISMATCH; next a
page lsn beyond a positive stop_lsn is LSN_FROM_FUTURE; otherwise VALID. -/
theorem C2_validate_one_page_order (env : Env) (page : Option (List Nat))
    (absolute_blkno stop_lsn page_lsn0 checksum_version : Nat) :
    (validate_one_page env page absolute_blkno stop_lsn page_lsn0 checksum_version).1 =
      validate_one_page_spec env page absolute_blkno stop_lsn checksum_version := by
  cases page with
  | none => rfl
  | some p =>
    simp only [validate_one_page, validate_one_page_spec, parse_page]
    cases hsv : pageHeaderSane p
    · rw [if_neg (show ¬((false : Bool) = true) by simp), if_pos rfl]
      split <;> rfl
    · rw [if_neg (show ¬((true : Bool) = false) by simp), if_pos rfl]
      split
      · rfl
      · split <;> rfl

/-- C10: page_may_be_compressed is true exactly when the header invariants
fail, the producer version predates 2.0.23, and a zlib payload starts with
the 0x78 magic byte; for producer versions at least 2.0.23 it is always
false. -/
theorem C10_page_may_be_compressed (p : List Nat) (alg : CompressAlg) (bv : Nat) :
    (page_may_be_compressed p alg bv = true ↔
      (pageHeaderSane p = false ∧ bv < 20023 ∧
        (alg = .ZLIB_COMPRESS → byteAt p 0 = ZLIB_MAGIC))) ∧
    (20023 ≤ bv → page_may_be_compressed p alg bv = false) := by
  unfold page_may_be_compressed
  split_ifs with h1 h2 h3
  · refine ⟨⟨fun hx => absurd hx (by simp), ?_⟩, fun _ => rfl⟩
    rintro ⟨-, hlt, -⟩
    omega
  · refine ⟨⟨fun hx => absurd hx (by simp), ?_⟩, fun hx => absurd hx h2⟩
    rintro ⟨-, -, hm⟩
    exact h3.2 (hm h3.1)
  · refine ⟨⟨fun _ => ⟨h1, by omega, fun hzz => ?_⟩, fun _ => rfl⟩, fun hx => absurd hx h2⟩
    rcases not_and.mp h3 hzz with hb
    exact not_not.mp hb
  · refine ⟨⟨fun hx => absurd hx (by simp), ?_⟩, fun _ => rfl⟩
    rintro ⟨hx, -, -⟩
    exact h1 hx

/-- C9: check_file_pages selects the crc32c polynomial exactly for producer
versions at most 2.0.21 or at least 2.0.25, and whenever the frame replay
completes with a recomputed rolling checksum different from the recorded
file crc the file is reported invalid. -/
theorem C9_crc_selection :
    (∀ bv, use_crc32c bv = true ↔ (bv ≤ 20021 ∨ 20025 ≤ bv)) ∧
    (∀ (env : Env) (f : pgFile) (frames : List BackupPageFrame) (sl cv bv : Nat)
      (st : CheckSt),
      check_loop env f sl cv bv (use_crc32c bv) frames ⟨env.crc_init (use_crc32c bv), true⟩ =
        some st →
      env.crc_fin (use_crc32c bv) st.crc ≠ f.crc →
      check_file_pages env f true frames sl cv bv = false) := by
  constructor
  · intro bv
    simp [use_crc32c]
  · intro env f frames sl cv bv st h hne
    unfold check_file_pages
    simp only [Bool.true_eq_false, if_false, h]
    simp [hne]

/-- C6: the frame emitted for block b is {b, c} followed by MAXALIGN(c)
payload bytes when the compressor returns 0 < c < BLCKSZ, and {b, BLCKSZ}
followed by the raw page otherwise; the rolling file checksum is updated
over exactly the emitted header-plus-payload bytes. -/
theorem C6_frame_emission (env : Env) (blknum crc : Nat) (page : List Nat)
    (calg : CompressAlg) (clevel : Int) (c : Int) (o : List Nat)
    (h : do_compress env page calg clevel = (c, o)) :
    (compress_and_backup_page env blknum crc page calg clevel).crc =
      env.crc_comp true crc
        (frameBytes (compress_and_backup_page env blknum crc page calg clevel).frame) ∧
    (compress_and_backup_page env blknum crc page calg clevel).frame.block = blknum ∧
    (0 < c ∧ c < (BLCKSZ : Int) →
      (compress_and_backup_page env blknum crc page calg clevel).frame =
        ⟨blknum, c, o.take c.toNat ++ padList env (MAXALIGN c.toNat - c.toNat)⟩ ∧
      (compress_and_backup_page env blknum crc page calg clevel).write_buffer_size =
        8 + MAXALIGN c.toNat) ∧
    (¬(0 < c ∧ c < (BLCKSZ : Int)) →
      (compress_and_backup_page env blknum crc page calg clevel).frame =
        ⟨blknum, (BLCKSZ : Int), page⟩ ∧
      (compress_and_backup_page env blknum crc page calg clevel).write_buffer_size =
        8 + BLCKSZ) ∧
    (0 < c → c < (BLCKSZ : Int) → c.toNat ≤ o.length →
      (compress_and_backup_page env blknum crc page calg clevel).frame.payload.length =
        MAXALIGN c.toNat) := by
  unfold compress_and_backup_page
  rw [h]
  dsimp only
  split_ifs with hc
  · refine ⟨rfl, rfl, fun _ => ⟨rfl, rfl⟩, fun hn => absurd hc hn, fun h1 h2 h3 => ?_⟩
    have hle := le_MAXALIGN c.toNat
    simp [padList]
    omega
  · exact ⟨rfl, rfl, fun hx => absurd hx hc, fun _ => ⟨rfl, rfl⟩,
      fun h1 h2 _ => absurd ⟨h1, h2⟩ hc⟩

/-- C5: with an empty, non-absent pagemap in PAGE or PTRACK mode for a file
existing in the previous backup, backup_data_file only records n_blocks and
sets write_size to BYTES_INVALID, returning before opening the source or
output file and leaving read_size and crc untouched and producing no output
stream. -/
theorem C5_unchanged_detection (a : BackupArgs) (f : pgFile)
    (hmode : a.backup_mode = .BACKUP_MODE_DIFF_PAGE ∨
      a.backup_mode = .BACKUP_MODE_DIFF_PTRACK)
    (hempty : f.pagemap.bitmapsize = PageBitmapIsEmpty)
    (hprev : f.exists_in_prev = true)
    (habs : f.pagemap_isabsent = false) :
    backup_data_file a f =
      some ⟨{ f with
              n_blocks := ((f.size / BLCKSZ : Nat) : Int)
              write_size := BYTES_INVALID },
            none, false, false⟩ := by
  unfold backup_data_file
  rw [if_pos ⟨hmode, hempty, hprev, habs⟩]

/-- C8: a frame whose compressed_size is the truncation marker -1 makes the
restore loop truncate the destination to exactly block times BLCKSZ bytes
and stop replaying that stream, whatever frames follow. -/
theorem C8_truncation_marker (env : Env) (calg : CompressAlg) (bv : Nat) (nb : Int)
    (k : Nat) (pl : List Nat) (rest : List BackupPageFrame) (st : RestoreSt)
    (h : st.blknum ≤ k) :
    restore_loop env calg bv nb (⟨k, -1, pl⟩ :: rest) st =
      some ⟨k, st.write_len, truncateTo (k * BLCKSZ) st.dest⟩ ∧
    (truncateTo (k * BLCKSZ) st.dest).length = k * BLCKSZ ∧
    (∀ (f : pgFile) (d0 : List Nat),
      restore_data_file_internal env f bv nb (⟨k, -1, pl⟩ :: rest) d0 =
        some (truncateTo (k * BLCKSZ) d0, 0)) := by
  refine ⟨?_, length_truncateTo _ _, ?_⟩
  · unfold restore_loop
    have h0 : ¬(k = 0 ∧ (-1 : Int) = 0) := by simp
    have h1 : ¬(k < st.blknum) := by omega
    simp only [h0, if_false, h1, if_pos]
  · intro f d0
    unfold restore_data_file_internal restore_loop
    have h0 : ¬(k = 0 ∧ (-1 : Int) = 0) := by simp
    have h1 : ¬(k < (0 : Nat)) := by omega
    simp only [h0, if_false, h1, if_pos]

theorem page_read_loop_succ (env : Env) (reads : Nat → ReadResult) (abs cv : Nat)
    (mode : BackupMode) (attempt fuel : Nat) :
    page_read_loop env reads abs cv mode attempt (fuel + 1) =
      match reads attempt with
      | .rzero => .truncated
      | .rerr => .ioerror
      | .rshort _ => page_read_loop env reads abs cv mode (attempt + 1) fuel
      | .rfull p =>
        match validate_one_page env (some p) abs 0 0 cv with
        | (.PAGE_IS_ZEROED, _) => .okPage p
        | (.PAGE_IS_VALID, lsn) =>
          if mode = .BACKUP_MODE_DIFF_DELTA then .deltaValid p lsn else .okPage p
        | _ => page_read_loop env reads abs cv mode (attempt + 1) fuel := rfl

theorem page_read_loop_valid_first (env : Env) (reads : Nat → ReadResult) (abs cv : Nat)
    (mode : BackupMode) (attempt fuel : Nat) (p : List Nat) (lsn : Nat)
    (hr : reads attempt = .rfull p)
    (hv : validate_one_page env (some p) abs 0 0 cv = (.PAGE_IS_VALID, lsn)) :
    page_read_loop env reads abs cv mode attempt (fuel + 1) =
      if mode = .BACKUP_MODE_DIFF_DELTA then .deltaValid p lsn else .okPage p := by
  simp only [page_read_loop_succ, hr, hv]

theorem page_read_loop_skip_invalid (env : Env) (reads : Nat → ReadResult) (abs cv : Nat)
    (mode : BackupMode) (k : Nat) (pv : List Nat) (lsn : Nat)
    (hbad : ∀ i, i < k → ∃ q, reads i = .rfull q ∧
      ((validate_one_page env (some q) abs 0 0 cv).1 = .PAGE_HEADER_IS_INVALID ∨
       (validate_one_page env (some q) abs 0 0 cv).1 = .PAGE_CHECKSUM_MISMATCH))
    (hk : reads k = .rfull pv)
    (hv : validate_one_page env (some pv) abs 0 0 cv = (.PAGE_IS_VALID, lsn)) :
    ∀ fuel t, t ≤ k → k < t + fuel →
      page_read_loop env reads abs cv mode t fuel =
        if mode = .BACKUP_MODE_DIFF_DELTA then .deltaValid pv lsn else .okPage pv := by
  intro fuel
  induction fuel with
  | zero => intro t ht hlt; omega
  | succ fuel ih =>
    intro t ht hlt
    rcases Nat.eq_or_lt_of_le ht with he | hl
    · subst he
      simp only [page_read_loop_succ, hk, hv]
    · rcases hbad t hl with ⟨q, hq, hval⟩
      rcases hv2 : validate_one_page env (some q) abs 0 0 cv with ⟨s, l⟩
      rw [hv2] at hval
      simp only [page_read_loop_succ, hq, hv2]
      cases s <;> simp at hval <;> exact ih (t + 1) (by omega) (by omega)

theorem page_read_loop_exhaust (env : Env) (reads : Nat → ReadResult) (abs cv : Nat)
    (mode : BackupMode)
    (hbad : ∀ i, i < PAGE_READ_ATTEMPTS → ∃ q, reads i = .rfull q ∧
      ((validate_one_page env (some q) abs 0 0 cv).1 = .PAGE_HEADER_IS_INVALID ∨
       (validate_one_page env (some q) abs 0 0 cv).1 = .PAGE_CHECKSUM_MISMATCH)) :
    ∀ fuel t, t + fuel ≤ PAGE_READ_ATTEMPTS →
      page_read_loop env reads abs cv mode t fuel = .invalid := by
  intro fuel
  induction fuel with
  | zero => intro t _; rfl
  | succ fuel ih =>
    intro t hle
    rcases hbad t (by omega) with ⟨q, hq, hval⟩
    rcases hv2 : validate_one_page env (some q) abs 0 0 cv with ⟨s, l⟩
    rw [hv2] at hval
    simp only [page_read_loop_succ, hq, hv2]
    cases s <;> simp at hval <;> exact ih (t + 1) (by omega)

/-- C4: prepare_page retries a positional read up to PAGE_READ_ATTEMPTS =
100 times; if the first k < 100 attempts yield pages classified
HEADER_INVALID or CHECKSUM_MISMATCH and attempt k+1 yields a VALID page,
the result is OK with that page (in both strict and non-strict mode);
only when all 100 attempts yield such invalid pages does it report
corruption, fatally in strict mode and as PageIsCorrupted with a warning
in non-strict mode. -/
theorem C4_torn_read_retry :
    (∀ (env : Env) (reads : Nat → ReadResult) (eip : Bool) (prev cv ptv abs : Nat)
      (p0 pv : List Nat) (lsn : Nat) (strict : Bool) (k : Nat),
      k < PAGE_READ_ATTEMPTS →
      (∀ i, i < k → ∃ q, reads i = .rfull q ∧
        ((validate_one_page env (some q) abs 0 0 cv).1 = .PAGE_HEADER_IS_INVALID ∨
         (validate_one_page env (some q) abs 0 0 cv).1 = .PAGE_CHECKSUM_MISMATCH)) →
      reads k = .rfull pv →
      validate_one_page env (some pv) abs 0 0 cv = (.PAGE_IS_VALID, lsn) →
      prepare_page env reads eip prev .BACKUP_MODE_FULL strict cv ptv abs p0 =
        .PageIsOk pv) ∧
    (∀ (env : Env) (reads : Nat → ReadResult) (eip : Bool) (prev cv ptv abs : Nat)
      (p0 : List Nat),
      (∀ i, i < PAGE_READ_ATTEMPTS → ∃ q, reads i = .rfull q ∧
        ((validate_one_page env (some q) abs 0 0 cv).1 = .PAGE_HEADER_IS_INVALID ∨
         (validate_one_page env (some q) abs 0 0 cv).1 = .PAGE_CHECKSUM_MISMATCH)) →
      prepare_page env reads eip prev .BACKUP_MODE_FULL true cv ptv abs p0 = .FatalError ∧
      prepare_page env reads eip prev .BACKUP_MODE_FULL false cv ptv abs p0 =
        .PageIsCorrupted) := by
  constructor
  · intro env reads eip prev cv ptv abs p0 pv lsn strict k hk hbad hrk hv
    have hloop := page_read_loop_skip_invalid env reads abs cv .BACKUP_MODE_FULL k pv lsn
      hbad hrk hv PAGE_READ_ATTEMPTS 0 (by omega) (by omega)
    rw [if_neg (by simp)] at hloop
    unfold prepare_page
    rw [if_pos (Or.inl (by simp)), hloop]
  · intro env reads eip prev cv ptv abs p0 hbad
    have hloop := page_read_loop_exhaust env reads abs cv .BACKUP_MODE_FULL hbad
      PAGE_READ_ATTEMPTS 0 (by omega)
    constructor <;> (unfold prepare_page; rw [if_pos (Or.inl (by simp)), hloop]; rfl)

/-- C3 counterexample: a DELTA-mode block whose page is classified VALID
with lsn 0 while the file exists in the parent and 0 is strictly below the
parent start lsn 5 is returned as PageIsOk, not skipped, because the code
additionally requires a nonzero page lsn. -/
theorem C3_counterexample :
    validate_one_page env0 (some lsnZeroPage) 0 0 0 0 = (.PAGE_IS_VALID, 0) ∧
    pd_lsn lsnZeroPage < 5 ∧
    prepare_page env0 (fun _ => .rfull lsnZeroPage) true 5 .BACKUP_MODE_DIFF_DELTA true 0 0 0
      zeroPage = .PageIsOk lsnZeroPage :=
  ⟨by decide, by decide, rfl⟩

/-- C3 (amended): in DELTA mode, a block whose page is obtained and
classified VALID is skipped when the file existed in the parent backup and
the page lsn is nonzero and strictly below prev_backup_start_lsn. -/
theorem C3_delta_skip (env : Env) (reads : Nat → ReadResult) (prev cv ptv abs : Nat)
    (p0 p : List Nat) (lsn : Nat)
    (hr : reads 0 = .rfull p)
    (hv : validate_one_page env (some p) abs 0 0 cv = (.PAGE_IS_VALID, lsn))
    (hlsn : lsn ≠ 0) (hlt : lsn < prev) :
    prepare_page env reads true prev .BACKUP_MODE_DIFF_DELTA true cv ptv abs p0 =
      .SkipCurrentPage := by
  have h100 : PAGE_READ_ATTEMPTS = 99 + 1 := rfl
  have hloop := page_read_loop_valid_first env reads abs cv .BACKUP_MODE_DIFF_DELTA 0 99 p lsn
    hr hv
  rw [if_pos rfl] at hloop
  unfold prepare_page
  rw [if_pos (Or.inl (by simp)), h100, hloop]
  show prepare_page_tail env true prev .BACKUP_MODE_DIFF_DELTA cv ptv abs p lsn =
    .SkipCurrentPage
  unfold prepare_page_tail
  rw [if_neg (by simp)]
  unfold delta_skip_check
  rw [if_pos ⟨rfl, rfl, hlsn, hlt⟩]

theorem backup_step_cases (a : BackupArgs) (f : pgFile) (b : Nat) (st st2 : LoopSt)
    (fs : List BackupPageFrame) (h : backup_step a f b st = .cont st2 fs) :
    fs = [] ∨ ∃ x : BackupPageFrame, fs = [x] ∧ x.block = b := by
  unfold backup_step at h
  rcases hpp : prepare_page a.env (a.reads b) f.exists_in_prev a.prev_backup_start_lsn
      a.backup_mode true a.checksum_version a.ptrack_version_num
      (f.segno * RELSEG_SIZE + b) a.page0 with p | _ | _ | _ | _ <;>
    rw [hpp] at h <;> cases h
  · exact Or.inr ⟨_, rfl, emit_block _ _ _ _ _ _⟩
  · exact Or.inl rfl
  · exact Or.inl rfl

theorem backup_seq_loop_succ (a : BackupArgs) (f : pgFile) (n b fuel : Nat) (st : LoopSt) :
    backup_seq_loop a f n b (fuel + 1) st =
      if b < n then
        match backup_step a f b st with
        | .fatal => none
        | .brk st2 => some (st2, [])
        | .cont st2 fs =>
          match backup_seq_loop a f n (b + 1) fuel st2 with
          | none => none
          | some (st3, fs2) => some (st3, fs ++ fs2)
      else some (st, []) := rfl

theorem backup_seq_loop_blocks (a : BackupArgs) (f : pgFile) (n : Nat) :
    ∀ fuel b st st2 fs, backup_seq_loop a f n b fuel st = some (st2, fs) →
      (∀ x ∈ fs, b ≤ x.block) ∧
      List.Pairwise (fun x y : BackupPageFrame => x.block < y.block) fs := by
  intro fuel
  induction fuel with
  | zero =>
    intro b st st2 fs h
    cases h
    simp
  | succ fuel ih =>
    intro b st st2 fs h
    rw [backup_seq_loop_succ] at h
    by_cases hb : b < n
    · rw [if_pos hb] at h
      rcases hstep : backup_step a f b st with _ | st1 | ⟨st1, fs1⟩ <;>
        (rw [hstep] at h; dsimp only at h)
      · cases h
      · cases h
        simp
      · rcases hrec : backup_seq_loop a f n (b + 1) fuel st1 with _ | ⟨st3, fs2⟩ <;>
          rw [hrec] at h
        · cases h
        · have hfs : fs = fs1 ++ fs2 := (congrArg Prod.snd (Option.some.inj h)).symm
          subst hfs
          rcases ih _ _ _ _ hrec with ⟨hge, hpw⟩
          rcases backup_step_cases _ _ _ _ _ _ hstep with hnil | ⟨x, hx, hxb⟩
          · subst hnil
            exact ⟨fun y hy => by have := hge y (by simpa using hy); omega,
              by simpa using hpw⟩
          · subst hx
            constructor
            · intro y hy
              rcases List.mem_cons.mp (by simpa using hy) with h1 | h1
              · subst h1
                omega
              · have := hge y h1
                omega
            · refine List.pairwise_append.mpr ⟨List.pairwise_singleton .. , hpw, ?_⟩
              intro y hy z hz
              have h1 : y = x := by simpa using hy
              subst h1
              have := hge z hz
              omega
    · rw [if_neg hb] at h
      cases h
      simp

theorem backup_map_loop_blocks (a : BackupArgs) (f : pgFile) (n : Nat) :
    ∀ (rest : List Nat) b st st2 fs,
      List.Pairwise (· < ·) (b :: rest) →
      backup_map_loop a f n b rest st = some (st2, fs) →
      (∀ x ∈ fs, b ≤ x.block) ∧
      List.Pairwise (fun x y : BackupPageFrame => x.block < y.block) fs := by
  intro rest
  induction rest with
  | nil =>
    intro b st st2 fs hpw h
    unfold backup_map_loop at h
    by_cases hb : b < n
    · rw [if_pos hb] at h
      rcases hstep : backup_step a f b st with _ | st1 | ⟨st1, fs1⟩ <;>
        (rw [hstep] at h; dsimp only at h)
      · cases h
      · cases h
        simp
      · have hfs : fs = fs1 := (congrArg Prod.snd (Option.some.inj h)).symm
        subst hfs
        rcases backup_step_cases _ _ _ _ _ _ hstep with hnil | ⟨x, hx, hxb⟩
        · subst hnil
          simp
        · subst hx
          simp [hxb]
    · rw [if_neg hb] at h
      cases h
      simp
  | cons b2 rest2 ih =>
    intro b st st2 fs hpw h
    unfold backup_map_loop at h
    by_cases hb : b < n
    · rw [if_pos hb] at h
      rcases hstep : backup_step a f b st with _ | st1 | ⟨st1, fs1⟩ <;>
        (rw [hstep] at h; dsimp only at h)
      · cases h
      · cases h
        simp
      · rcases hrec : backup_map_loop a f n b2 rest2 st1 with _ | ⟨st3, fs2⟩ <;>
          rw [hrec] at h
        · cases h
        · have hfs : fs = fs1 ++ fs2 := (congrArg Prod.snd (Option.some.inj h)).symm
          subst hfs
          have hpw2 : List.Pairwise (· < ·) (b2 :: rest2) :=
            (List.pairwise_cons.mp hpw).2
          have hbb2 : b < b2 :=
            (List.pairwise_cons.mp hpw).1 b2 (List.mem_cons_self _ _)
          rcases ih _ _ _ _ hpw2 hrec with ⟨hge, hpw3⟩
          rcases backup_step_cases _ _ _ _ _ _ hstep with hnil | ⟨x, hx, hxb⟩
          · subst hnil
            exact ⟨fun y hy => by have := hge y (by simpa using hy); omega,
              by simpa using hpw3⟩
          · subst hx
            constructor
            · intro y hy
              rcases List.mem_cons.mp (by simpa using hy) with h1 | h1
              · subst h1
                omega
              · have := hge y h1
                omega
            · refine List.pairwise_append.mpr ⟨List.pairwise_singleton .. , hpw3, ?_⟩
              intro y hy z hz
              have h1 : y = x := by simpa using hy
              subst h1
              have := hge z hz
              omega
    · rw [if_neg hb] at h
      cases h
      simp

theorem bitIndices_pairwise (bm : List Bool) : List.Pairwise (· < ·) (bitIndices bm) :=
  (List.pairwise_lt_range _).filter _

theorem backup_finish_frames (a : BackupArgs) (f : pgFile) (fs0 fs : List BackupPageFrame)
    (h : (backup_finish a f fs0).frames = some fs) : fs = fs0 := by
  unfold backup_finish at h
  dsimp only at h
  split at h <;> split at h <;> split at h <;> simp_all

/-- C7: in every backup stream produced by a local backup_data_file pass,
whether driven by the pagemap iterator or by the sequential 0..n_blocks
loop, the block numbers of successive emitted frames strictly increase. -/
theorem C7_frame_monotonicity (a : BackupArgs) (file0 : pgFile) (r : BackupResult)
    (fs : List BackupPageFrame)
    (hremote : a.remote = none)
    (h : backup_data_file a file0 = some r) (hfs : r.frames = some fs) :
    List.Pairwise (· < ·) (fs.map fun x => x.block) := by
  unfold backup_data_file at h
  rw [hremote] at h
  dsimp only at h
  split at h
  · have hr := (Option.some.inj h).symm
    subst hr
    simp at hfs
  · split at h
    · split at h
      · have hr := (Option.some.inj h).symm
        subst hr
        simp at hfs
      · cases h
    · split at h
      · cases h
      · rename_i st fs0 heq
        have hr := (Option.some.inj h).symm
        subst hr
        have hfs0 := backup_finish_frames _ _ _ _ hfs
        subst hfs0
        rw [List.pairwise_map]
        split at heq
        · split at heq
          · exact (backup_map_loop_blocks _ _ _ _ _ _ _ _
              (List.pairwise_singleton _ _) heq).2
          · rename_i b rest hb
            exact (backup_map_loop_blocks _ _ _ _ _ _ _ _
              (hb ▸ bitIndices_pairwise _) heq).2
        · exact (backup_seq_loop_blocks _ _ _ _ _ _ _ _ heq).2

theorem pageAt_length (src : List Nat) (n j : Nat) (hsrc : src.length = n * BLCKSZ)
    (hj : j < n) : (pageAt src j).length = BLCKSZ := by
  unfold pageAt
  rw [List.length_take, List.length_drop, hsrc]
  have h2 : (j + 1) * BLCKSZ ≤ n * BLCKSZ := Nat.mul_le_mul_right _ hj
  have h1 : BLCKSZ + j * BLCKSZ ≤ n * BLCKSZ := by
    calc BLCKSZ + j * BLCKSZ = (j + 1) * BLCKSZ := by ring
      _ ≤ n * BLCKSZ := h2
  exact Nat.min_eq_left (Nat.le_sub_of_add_le h1)

theorem readsFrom_full (src : List Nat) (n b : Nat) (hsrc : src.length = n * BLCKSZ)
    (hb : b < n) (t : Nat) : readsFrom src b t = .rfull (pageAt src b) := by
  have hL := pageAt_length src n b hsrc hb
  unfold readsFrom
  dsimp only
  rw [hL]
  norm_num [BLCKSZ]

theorem prepare_page_first_valid (env : Env) (reads : Nat → ReadResult) (eip : Bool)
    (prev cv ptv abs : Nat) (mode : BackupMode) (p0 p : List Nat) (lsn : Nat)
    (hm1 : mode ≠ .BACKUP_MODE_DIFF_PTRACK) (hm2 : mode ≠ .BACKUP_MODE_DIFF_DELTA)
    (hr : reads 0 = .rfull p)
    (hv : validate_one_page env (some p) abs 0 0 cv = (.PAGE_IS_VALID, lsn)) :
    prepare_page env reads eip prev mode true cv ptv abs p0 = .PageIsOk p := by
  have h100 : PAGE_READ_ATTEMPTS = 99 + 1 := rfl
  have hloop := page_read_loop_valid_first env reads abs cv mode 0 99 p lsn hr hv
  rw [if_neg hm2] at hloop
  unfold prepare_page
  rw [if_pos (Or.inl hm1), h100, hloop]

theorem framesFor_succ (env : Env) (calg : CompressAlg) (cl : Int) (src : List Nat)
    (b m : Nat) :
    framesFor env calg cl src b (m + 1) =
      frameFor env calg cl b (pageAt src b) :: framesFor env calg cl src (b + 1) m := by
  unfold framesFor
  rw [List.range'_succ]
  rfl

theorem backup_step_emit (a : BackupArgs) (f : pgFile) (b : Nat) (st : LoopSt) (p : List Nat)
    (hprep : prepare_page a.env (a.reads b) f.exists_in_prev a.prev_backup_start_lsn
      a.backup_mode true a.checksum_version a.ptrack_version_num
      (f.segno * RELSEG_SIZE + b) a.page0 = .PageIsOk p) :
    backup_step a f b st =
      .cont ⟨(compress_and_backup_page a.env b st.crc p a.calg a.clevel).crc,
             st.read_size + BLCKSZ,
             st.write_size +
               ((compress_and_backup_page a.env b st.crc p a.calg a.clevel).write_buffer_size :
                 Int),
             st.uncompressed_size + (BLCKSZ : Int), a.calg⟩
        [frameFor a.env a.calg a.clevel b p] := by
  unfold backup_step
  rw [hprep]
  dsimp only
  rw [(emit_frame_crc_indep a.env b st.crc p a.calg a.clevel).1]

theorem backup_seq_loop_full (a : BackupArgs) (f : pgFile) (src : List Nat) (n : Nat)
    (hreads : a.reads = readsFrom src)
    (hsrc : src.length = n * BLCKSZ)
    (hm1 : a.backup_mode ≠ .BACKUP_MODE_DIFF_PTRACK)
    (hm2 : a.backup_mode ≠ .BACKUP_MODE_DIFF_DELTA)
    (hvalid : ∀ j, j < n → ∃ lsn, validate_one_page a.env (some (pageAt src j))
      (f.segno * RELSEG_SIZE + j) 0 0 a.checksum_version = (.PAGE_IS_VALID, lsn)) :
    ∀ fuel b st, b + fuel = n →
      ∃ st2, backup_seq_loop a f n b fuel st =
          some (st2, framesFor a.env a.calg a.clevel src b fuel) ∧
        st2.read_size = st.read_size + fuel * BLCKSZ ∧
        st.write_size + fuel ≤ st2.write_size ∧
        (0 < fuel → st2.calg = a.calg) := by
  intro fuel
  induction fuel with
  | zero =>
    intro b st hb
    exact ⟨st, rfl, by simp, by omega, by omega⟩
  | succ fuel ih =>
    intro b st hb
    have hbn : b < n := by omega
    rcases hvalid b hbn with ⟨lsn, hv⟩
    have hprep : prepare_page a.env (a.reads b) f.exists_in_prev a.prev_backup_start_lsn
        a.backup_mode true a.checksum_version a.ptrack_version_num
        (f.segno * RELSEG_SIZE + b) a.page0 = .PageIsOk (pageAt src b) := by
      refine prepare_page_first_valid a.env (a.reads b) f.exists_in_prev
        a.prev_backup_start_lsn a.checksum_version a.ptrack_version_num
        (f.segno * RELSEG_SIZE + b) a.backup_mode a.page0 (pageAt src b) lsn hm1 hm2 ?_ hv
      rw [hreads]
      exact readsFrom_full src n b hsrc hbn 0
    rcases ih (b + 1)
        ⟨(compress_and_backup_page a.env b st.crc (pageAt src b) a.calg a.clevel).crc,
         st.read_size + BLCKSZ,
         st.write_size +
           ((compress_and_backup_page a.env b st.crc (pageAt src b) a.calg
             a.clevel).write_buffer_size : Int),
         st.uncompressed_size + (BLCKSZ : Int), a.calg⟩
        (by omega) with ⟨st2, hloop, hread, hwrite, hcalg⟩
    refine ⟨st2, ?_, ?_, ?_, fun _ => ?_⟩
    · rw [backup_seq_loop_succ, if_pos hbn,
        backup_step_emit a f b st (pageAt src b) hprep]
      dsimp only
      rw [hloop]
      dsimp only
      rw [framesFor_succ]
      rfl
    · rw [hread]
      dsimp only
      simp only [BLCKSZ]
      omega
    · have hwbs := emit_wbs_pos a.env b st.crc (pageAt src b) a.calg a.clevel
      dsimp only at hwrite
      omega
    · rcases Nat.eq_zero_or_pos fuel with h0 | hpos
      · subst h0
        have h2 : (⟨(compress_and_backup_page a.env b st.crc (pageAt src b) a.calg
              a.clevel).crc, st.read_size + BLCKSZ,
            st.write_size + ((compress_and_backup_page a.env b st.crc (pageAt src b) a.calg
              a.clevel).write_buffer_size : Int),
            st.uncompressed_size + (BLCKSZ : Int), a.calg⟩ : LoopSt) = st2 :=
          congrArg Prod.fst (Option.some.inj hloop)
        rw [← h2]
      · exact hcalg hpos

theorem backup_map_loop_full (a : BackupArgs) (f : pgFile) (src : List Nat) (n : Nat)
    (hreads : a.reads = readsFrom src)
    (hsrc : src.length = n * BLCKSZ)
    (hm1 : a.backup_mode ≠ .BACKUP_MODE_DIFF_PTRACK)
    (hm2 : a.backup_mode ≠ .BACKUP_MODE_DIFF_DELTA)
    (hvalid : ∀ j, j < n → ∃ lsn, validate_one_page a.env (some (pageAt src j))
      (f.segno * RELSEG_SIZE + j) 0 0 a.checksum_version = (.PAGE_IS_VALID, lsn)) :
    ∀ m b st, b + m + 1 = n →
      ∃ st2, backup_map_loop a f n b (List.range' (b + 1) m) st =
          some (st2, framesFor a.env a.calg a.clevel src b (m + 1)) ∧
        st2.read_size = st.read_size + (m + 1) * BLCKSZ ∧
        st.write_size + (m + 1) ≤ st2.write_size ∧
        st2.calg = a.calg := by
  intro m
  induction m with
  | zero =>
    intro b st hb
    have hbn : b < n := by omega
    rcases hvalid b hbn with ⟨lsn, hv⟩
    have hprep : prepare_page a.env (a.reads b) f.exists_in_prev a.prev_backup_start_lsn
        a.backup_mode true a.checksum_version a.ptrack_version_num
        (f.segno * RELSEG_SIZE + b) a.page0 = .PageIsOk (pageAt src b) := by
      refine prepare_page_first_valid a.env (a.reads b) f.exists_in_prev
        a.prev_backup_start_lsn a.checksum_version a.ptrack_version_num
        (f.segno * RELSEG_SIZE + b) a.backup_mode a.page0 (pageAt src b) lsn hm1 hm2 ?_ hv
      rw [hreads]
      exact readsFrom_full src n b hsrc hbn 0
    refine ⟨⟨(compress_and_backup_page a.env b st.crc (pageAt src b) a.calg a.clevel).crc,
      st.read_size + BLCKSZ,
      st.write_size + ((compress_and_backup_page a.env b st.crc (pageAt src b) a.calg
        a.clevel).write_buffer_size : Int),
      st.uncompressed_size + (BLCKSZ : Int), a.calg⟩, ?_, ?_, ?_, rfl⟩
    · unfold backup_map_loop
      rw [if_pos hbn, backup_step_emit a f b st (pageAt src b) hprep]
      rfl
    · dsimp only
      try simp only [BLCKSZ]
      try omega
    · have hwbs := emit_wbs_pos a.env b st.crc (pageAt src b) a.calg a.clevel
      dsimp only
      omega
  | succ m ih =>
    intro b st hb
    have hbn : b < n := by omega
    rcases hvalid b hbn with ⟨lsn, hv⟩
    have hprep : prepare_page a.env (a.reads b) f.exists_in_prev a.prev_backup_start_lsn
        a.backup_mode true a.checksum_version a.ptrack_version_num
        (f.segno * RELSEG_SIZE + b) a.page0 = .PageIsOk (pageAt src b) := by
      refine prepare_page_first_valid a.env (a.reads b) f.exists_in_prev
        a.prev_backup_start_lsn a.checksum_version a.ptrack_version_num
        (f.segno * RELSEG_SIZE + b) a.backup_mode a.page0 (pageAt src b) lsn hm1 hm2 ?_ hv
      rw [hreads]
      exact readsFrom_full src n b hsrc hbn 0
    rcases ih (b + 1)
        ⟨(compress_and_backup_page a.env b st.crc (pageAt src b) a.calg a.clevel).crc,
         st.read_size + BLCKSZ,
         st.write_size +
           ((compress_and_backup_page a.env b st.crc (pageAt src b) a.calg
             a.clevel).write_buffer_size : Int),
         st.uncompressed_size + (BLCKSZ : Int), a.calg⟩
        (by omega) with ⟨st2, hloop, hread, hwrite, hcalg⟩
    refine ⟨st2, ?_, ?_, ?_, hcalg⟩
    · unfold backup_map_loop
      rw [if_pos hbn, backup_step_emit a f b st (pageAt src b) hprep]
      dsimp only
      rw [List.range'_succ]
      dsimp only
      rw [hloop]
      dsimp only
      rw [framesFor_succ]
      rfl
    · rw [hread]
      dsimp only
      simp only [BLCKSZ]
      omega
    · have hwbs := emit_wbs_pos a.env b st.crc (pageAt src b) a.calg a.clevel
      dsimp only at hwrite
      omega

theorem writeAt_eq_append_of_len (d bs : List Nat) (off : Nat) (h : d.length = off) :
    writeAt d off bs = d ++ bs := by
  subst h
  exact writeAt_eq_append d bs

theorem take_mul_length (src : List Nat) (n b : Nat) (hsrc : src.length = n * BLCKSZ)
    (hb : b ≤ n) : (src.take (b * BLCKSZ)).length = b * BLCKSZ := by
  rw [List.length_take, hsrc]
  exact Nat.min_eq_left (Nat.mul_le_mul_right _ hb)

theorem writeAt_block (src : List Nat) (n b : Nat) (hsrc : src.length = n * BLCKSZ)
    (hb : b < n) :
    writeAt (src.take (b * BLCKSZ)) (b * BLCKSZ) (pageAt src b) =
      src.take ((b + 1) * BLCKSZ) := by
  rw [writeAt_eq_append_of_len _ _ _ (take_mul_length src n b hsrc (le_of_lt hb))]
  rw [show (b + 1) * BLCKSZ = b * BLCKSZ + BLCKSZ from by ring, List.take_add]
  rfl

theorem take_BLCKSZ_self (p : List Nat) (h : p.length = BLCKSZ) : p.take BLCKSZ = p :=
  List.take_of_length_le (le_of_eq h)

theorem restore_loop_full (env : Env) (calg : CompressAlg) (cl : Int) (bv : Nat)
    (n : Nat) (src : List Nat)
    (hsrc : src.length = n * BLCKSZ)
    (hsane : ∀ j, j < n → pageHeaderSane (pageAt src j) = true)
    (hcodec : ∀ p c o, p.length = BLCKSZ → do_compress env p calg cl = (c, o) →
      0 < c → c < (BLCKSZ : Int) →
      c.toNat ≤ o.length ∧
      ∀ extra, do_decompress env BLCKSZ (o.take c.toNat ++ extra) c.toNat calg =
        ((BLCKSZ : Int), p)) :
    ∀ m b blk wlen, b + m = n → blk ≤ b →
      ∃ blk2, restore_loop env calg bv (n : Int)
          (framesFor env calg cl src b m) ⟨blk, wlen, src.take (b * BLCKSZ)⟩ =
        some ⟨blk2, wlen + m * BLCKSZ, src.take ((b + m) * BLCKSZ)⟩ := by
  intro m
  induction m with
  | zero =>
    intro b blk wlen hb hblk
    exact ⟨blk, by simp [framesFor, restore_loop]⟩
  | succ m ih =>
    intro b blk wlen hb hblk
    have hbn : b < n := by omega
    have hplen : (pageAt src b).length = BLCKSZ := pageAt_length src n b hsrc hbn
    rw [framesFor_succ]
    rcases hco : do_compress env (pageAt src b) calg cl with ⟨c, o⟩
    rw [show wlen + (m + 1) * BLCKSZ = wlen + BLCKSZ + m * BLCKSZ from by ring,
      show b + (m + 1) = b + 1 + m from by ring]
    by_cases hc : 0 < c ∧ c < (BLCKSZ : Int)
    · obtain ⟨hc1, hc2⟩ := hc
      have hf : frameFor env calg cl b (pageAt src b) =
          ⟨b, c, o.take c.toNat ++ padList env (MAXALIGN c.toNat - c.toNat)⟩ := by
        unfold frameFor compress_and_backup_page
        rw [hco]
        dsimp only
        rw [if_pos ⟨hc1, hc2⟩]
      rcases hcodec (pageAt src b) c o hplen hco hc1 hc2 with ⟨hcle, hdec⟩
      have hpay : (o.take c.toNat ++ padList env (MAXALIGN c.toNat - c.toNat)).length =
          MAXALIGN c.toNat := by
        have hle := le_MAXALIGN c.toNat
        simp [padList]
        omega
      rw [hf]
      unfold restore_loop
      dsimp only
      rw [if_neg (show ¬(b = 0 ∧ c = 0) from by rintro ⟨-, h0⟩; omega)]
      rw [if_neg (show ¬(b < blk) from by omega)]
      rw [if_neg (show ¬(c = -1) from by omega)]
      rw [if_neg (show ¬(0 < (n : Int) ∧ (n : Int) ≤ (b : Int)) from by
        rintro ⟨-, hle2⟩
        have : (b : Int) < (n : Int) := by exact_mod_cast hbn
        omega)]
      rw [if_neg (show ¬((BLCKSZ : Int) < c) from by omega)]
      rw [if_neg (show
        ¬((o.take c.toNat ++ padList env (MAXALIGN c.toNat - c.toNat)).length ≠
          MAXALIGN c.toNat) from fun hne => hne hpay)]
      try dsimp only
      rw [if_pos (Or.inl (show c ≠ (BLCKSZ : Int) from by omega))]
      rw [hdec (padList env (MAXALIGN c.toNat - c.toNat))]
      dsimp only
      rw [if_neg (show ¬((BLCKSZ : Int) ≠ (BLCKSZ : Int)) from fun hne => hne rfl)]
      rw [take_BLCKSZ_self _ hplen, writeAt_block src n b hsrc hbn]
      exact ih (b + 1) b (wlen + BLCKSZ) (by omega) (by omega)
    · have hf : frameFor env calg cl b (pageAt src b) =
          ⟨b, (BLCKSZ : Int), pageAt src b⟩ := by
        unfold frameFor compress_and_backup_page
        rw [hco]
        dsimp only
        rw [if_neg hc]
      have hpay : (pageAt src b).length = MAXALIGN ((BLCKSZ : Int)).toNat := by
        rw [hplen]
        simp [MAXALIGN_BLCKSZ]
      rw [hf]
      unfold restore_loop
      dsimp only
      rw [if_neg (show ¬(b = 0 ∧ (BLCKSZ : Int) = 0) from by
        rintro ⟨-, h0⟩
        norm_num [BLCKSZ] at h0)]
      rw [if_neg (show ¬(b < blk) from by omega)]
      try dsimp only
      rw [if_neg (show ¬((BLCKSZ : Int) = -1) from by norm_num [BLCKSZ])]
      rw [if_neg (show ¬(0 < (n : Int) ∧ (n : Int) ≤ (b : Int)) from by
        rintro ⟨-, hle2⟩
        have : (b : Int) < (n : Int) := by exact_mod_cast hbn
        omega)]
      rw [if_neg (show ¬((BLCKSZ : Int) < (BLCKSZ : Int)) from by omega)]
      rw [if_neg (show ¬((pageAt src b).length ≠ MAXALIGN ((BLCKSZ : Int)).toNat) from
        fun hne => hne hpay)]
      try dsimp only
      rw [if_neg (show ¬((BLCKSZ : Int) ≠ (BLCKSZ : Int) ∨
          page_may_be_compressed (pageAt src b) calg bv = true) from by
        rintro (h | h)
        · exact h rfl
        · rw [pmbc_false_of_sane _ _ _ (hsane b hbn)] at h
          cases h)]
      rw [take_BLCKSZ_self _ hplen, writeAt_block src n b hsrc hbn]
      exact ih (b + 1) b (wlen + BLCKSZ) (by omega) (by omega)

theorem backup_finish_full_struct (a : BackupArgs) (f : pgFile) (fs : List BackupPageFrame)
    (hm : a.backup_mode = .BACKUP_MODE_FULL) :
    backup_finish a f fs =
      ⟨{ f with
         n_blocks := ((f.read_size / BLCKSZ : Nat) : Int)
         crc := a.env.crc_fin true f.crc },
       if f.write_size ≤ 0 then none else some fs, true, true⟩ := by
  unfold backup_finish
  dsimp only
  rw [if_pos (Or.inl hm), if_neg (show ¬(a.backup_mode ≠ BackupMode.BACKUP_MODE_FULL ∧
    f.exists_in_prev = true ∧ f.write_size = 0 ∧
      0 < ((f.read_size / BLCKSZ : Nat) : Int)) from by simp [hm])]
  split <;> rfl

theorem backup_finish_page_struct (a : BackupArgs) (f : pgFile) (fs : List BackupPageFrame)
    (hm : a.backup_mode = .BACKUP_MODE_DIFF_PAGE) (hw : f.write_size ≠ 0) :
    backup_finish a f fs =
      ⟨{ f with crc := a.env.crc_fin true f.crc },
       if f.write_size ≤ 0 then none else some fs, true, true⟩ := by
  unfold backup_finish
  dsimp only
  rw [if_neg (show ¬(a.backup_mode = BackupMode.BACKUP_MODE_FULL ∨
      a.backup_mode = BackupMode.BACKUP_MODE_DIFF_DELTA) from by simp [hm]),
    if_neg (show ¬(a.backup_mode ≠ BackupMode.BACKUP_MODE_FULL ∧
      f.exists_in_prev = true ∧ f.write_size = 0 ∧ 0 < f.n_blocks) from by
        rintro ⟨-, -, h0, -⟩; exact hw h0)]
  split <;> rfl

theorem bitIndices_replicate_true (n : Nat) :
    bitIndices (List.replicate n true) = List.range n := by
  unfold bitIndices
  rw [List.length_replicate]
  apply List.filter_eq_self.mpr
  intro i hi
  have hin : i < n := List.mem_range.mp hi
  simp [List.getD_eq_getElem?_getD, List.getElem?_replicate, hin]

theorem backup_data_file_full_valid (a : BackupArgs) (file0 : pgFile) (src : List Nat)
    (n : Nat)
    (hreads : a.reads = readsFrom src)
    (hmode : a.backup_mode = .BACKUP_MODE_FULL)
    (hsize : file0.size = src.length)
    (habs : file0.pagemap_isabsent = true)
    (hfound : a.srcFound = true)
    (hremote : a.remote = none)
    (hsrc : src.length = n * BLCKSZ)
    (hvalid : ∀ j, j < n → ∃ lsn, validate_one_page a.env (some (pageAt src j))
      (file0.segno * RELSEG_SIZE + j) 0 0 a.checksum_version = (.PAGE_IS_VALID, lsn)) :
    ∃ r : BackupResult, backup_data_file a file0 = some r ∧
      (0 < n → r.frames = some (framesFor a.env a.calg a.clevel src 0 n) ∧
        r.file.n_blocks = (n : Int) ∧ r.file.compress_alg = a.calg) ∧
      (n = 0 → r.frames = none) := by
  have hnb : file0.size / BLCKSZ = n := by
    rw [hsize, hsrc]
    simp only [BLCKSZ]
    omega
  rcases backup_seq_loop_full a
      { file0 with
        n_blocks := ((n : Nat) : Int)
        read_size := 0
        write_size := 0
        uncompressed_size := 0
        crc := a.env.crc_init true } src n hreads hsrc (by simp [hmode]) (by simp [hmode])
      hvalid n 0 ⟨a.env.crc_init true, 0, 0, 0, file0.compress_alg⟩ (by omega) with
    ⟨st2, hloop, hread, hwrite, hcalg⟩
  have hmain : backup_data_file a file0 = some (backup_finish a
      { file0 with
        n_blocks := ((n : Nat) : Int)
        read_size := st2.read_size
        write_size := st2.write_size
        uncompressed_size := st2.uncompressed_size
        crc := st2.crc
        compress_alg := st2.calg } (framesFor a.env a.calg a.clevel src 0 n)) := by
    unfold backup_data_file
    rw [hremote]
    dsimp only
    rw [if_neg (by simp [hmode]), if_neg (by simp [hfound]), if_neg (by simp [habs]), hnb,
      hloop]
  rw [backup_finish_full_struct a _ _ hmode] at hmain
  dsimp only at hmain
  dsimp only at hwrite
  refine ⟨_, hmain, fun hpos => ?_, fun h0 => ?_⟩
  · have hw : ¬(st2.write_size ≤ 0) := by omega
    refine ⟨?_, ?_, ?_⟩
    · dsimp only
      rw [if_neg hw]
    · dsimp only
      congr 1
      dsimp only at hread
      simp only [BLCKSZ] at hread ⊢
      omega
    · dsimp only
      exact hcalg hpos
  · subst h0
    have hst : (⟨a.env.crc_init true, 0, 0, 0, file0.compress_alg⟩ : LoopSt) = st2 :=
      congrArg Prod.fst (Option.some.inj hloop)
    dsimp only
    rw [← hst]
    norm_num

theorem backup_data_file_page_valid (a : BackupArgs) (file0 : pgFile) (src : List Nat)
    (n : Nat)
    (hreads : a.reads = readsFrom src)
    (hmode : a.backup_mode = .BACKUP_MODE_DIFF_PAGE)
    (hsize : file0.size = src.length)
    (hprev : file0.exists_in_prev = true)
    (hpm : file0.pagemap = ⟨(n : Int), some (List.replicate n true)⟩)
    (habs : file0.pagemap_isabsent = false)
    (hfound : a.srcFound = true)
    (hremote : a.remote = none)
    (hsrc : src.length = n * BLCKSZ)
    (hvalid : ∀ j, j < n → ∃ lsn, validate_one_page a.env (some (pageAt src j))
      (file0.segno * RELSEG_SIZE + j) 0 0 a.checksum_version = (.PAGE_IS_VALID, lsn)) :
    ∃ r : BackupResult, backup_data_file a file0 = some r ∧
      (0 < n → r.frames = some (framesFor a.env a.calg a.clevel src 0 n) ∧
        r.file.n_blocks = (n : Int) ∧ r.file.compress_alg = a.calg) ∧
      (n = 0 → r.frames = none) := by
  have hnb : file0.size / BLCKSZ = n := by
    rw [hsize, hsrc]
    simp only [BLCKSZ]
    omega
  rcases n with _ | m
  · have hmain : backup_data_file a file0 =
        some ⟨{ file0 with
                n_blocks := ((file0.size / BLCKSZ : Nat) : Int)
                write_size := BYTES_INVALID },
              none, false, false⟩ := by
      unfold backup_data_file
      rw [if_pos ⟨Or.inl hmode, by rw [hpm]; norm_num [PageBitmapIsEmpty], hprev, habs⟩]
    exact ⟨_, hmain, fun hpos => absurd hpos (by omega), fun _ => rfl⟩
  · have hn : (0 : Nat) < m + 1 := by omega
    have hbit : bitIndices (file0.pagemap.bitmap.getD []) = 0 :: List.range' 1 m := by
      rw [hpm]
      show bitIndices (List.replicate (m + 1) true) = _
      rw [bitIndices_replicate_true, List.range_eq_range', List.range'_succ]
    rcases backup_map_loop_full a
        { file0 with
          n_blocks := (((m + 1 : Nat)) : Int)
          read_size := 0
          write_size := 0
          uncompressed_size := 0
          crc := a.env.crc_init true } src (m + 1) hreads hsrc (by simp [hmode])
        (by simp [hmode]) hvalid m 0 ⟨a.env.crc_init true, 0, 0, 0, file0.compress_alg⟩
        (by omega) with ⟨st2, hloop, hread, hwrite, hcalg⟩
    have hmain : backup_data_file a file0 = some (backup_finish a
        { file0 with
          n_blocks := (((m + 1 : Nat)) : Int)
          read_size := st2.read_size
          write_size := st2.write_size
          uncompressed_size := st2.uncompressed_size
          crc := st2.crc
          compress_alg := st2.calg } (framesFor a.env a.calg a.clevel src 0 (m + 1))) := by
      unfold backup_data_file
      rw [hremote]
      dsimp only
      rw [if_neg (show ¬((a.backup_mode = BackupMode.BACKUP_MODE_DIFF_PAGE ∨
          a.backup_mode = BackupMode.BACKUP_MODE_DIFF_PTRACK) ∧
          file0.pagemap.bitmapsize = PageBitmapIsEmpty ∧ file0.exists_in_prev = true ∧
          file0.pagemap_isabsent = false) from by
        rintro ⟨-, hbs, -, -⟩
        rw [hpm] at hbs
        simp only [PageBitmapIsEmpty] at hbs
        omega)]
      rw [if_neg (by simp [hfound])]
      rw [if_pos (show (!(file0.pagemap.bitmapsize == PageBitmapIsEmpty) &&
          !file0.pagemap_isabsent && file0.exists_in_prev &&
          file0.pagemap.bitmap.isSome) = true from by
        rw [hpm, habs, hprev]
        simp [PageBitmapIsEmpty]
        omega)]
      rw [hnb, hbit]
      dsimp only
      simp only [Nat.zero_add] at hloop
      rw [hloop]
    dsimp only at hwrite
    rw [backup_finish_page_struct a _ _ hmode (by dsimp only; omega)] at hmain
    dsimp only at hmain
    refine ⟨_, hmain, fun hpos => ?_, fun h0 => by omega⟩
    have hw : ¬(st2.write_size ≤ 0) := by omega
    refine ⟨?_, ?_, ?_⟩
    · dsimp only
      rw [if_neg hw]
    · rfl
    · dsimp only
      exact hcalg

/-- C1: round-trip identity.  For a source file all of whose blocks are
classified VALID, a local backup_data_file pass (any compression algorithm
satisfying the codec round-trip contract, pagemap absent or a pagemap
selecting every block) followed by restore_data_file_internal of that
single-backup chain onto a fresh destination writes exactly the original
file bytes. -/
theorem C1_round_trip (env : Env) (src : List Nat) (n : Nat) (calg : CompressAlg)
    (clevel : Int) (bv : Nat) (prev cv ptv : Nat) (p0 : List Nat) (mok : Bool)
    (fileA fileB : pgFile)
    (hsrc : src.length = n * BLCKSZ)
    (hvalid : ∀ s j, j < n → ∃ lsn, validate_one_page env (some (pageAt src j))
      (s * RELSEG_SIZE + j) 0 0 cv = (.PAGE_IS_VALID, lsn))
    (hcodec : ∀ p c o, p.length = BLCKSZ → do_compress env p calg clevel = (c, o) →
      0 < c → c < (BLCKSZ : Int) →
      c.toNat ≤ o.length ∧
      ∀ extra, do_decompress env BLCKSZ (o.take c.toNat ++ extra) c.toNat calg =
        ((BLCKSZ : Int), p))
    (hA1 : fileA.size = src.length) (hA2 : fileA.pagemap_isabsent = true)
    (hB1 : fileB.size = src.length) (hB2 : fileB.exists_in_prev = true)
    (hB3 : fileB.pagemap = ⟨(n : Int), some (List.replicate n true)⟩)
    (hB4 : fileB.pagemap_isabsent = false) :
    roundTripOk ⟨env, readsFrom src, prev, .BACKUP_MODE_FULL, calg, clevel, cv, ptv, p0,
      true, none, mok⟩ bv fileA src ∧
    roundTripOk ⟨env, readsFrom src, prev, .BACKUP_MODE_DIFF_PAGE, calg, clevel, cv, ptv,
      p0, true, none, mok⟩ bv fileB src := by
  have hsane : ∀ j, j < n → pageHeaderSane (pageAt src j) = true := by
    intro j hj
    rcases hvalid 0 j hj with ⟨lsn, hl⟩
    exact sane_of_valid env (pageAt src j) (0 * RELSEG_SIZE + j) 0 0 cv (by rw [hl])
  constructor
  · rcases backup_data_file_full_valid
      ⟨env, readsFrom src, prev, .BACKUP_MODE_FULL, calg, clevel, cv, ptv, p0, true, none,
        mok⟩ fileA src n rfl rfl hA1 hA2 rfl rfl hsrc (hvalid fileA.segno) with
      ⟨r, hbk, hfr, hfr0⟩
    unfold roundTripOk
    rw [hbk]
    dsimp only
    rcases Nat.eq_zero_or_pos n with h0 | hpos
    · rw [hfr0 h0]
      have hlen : src.length = 0 := by rw [hsrc, h0]; ring
      exact List.length_eq_zero.mp hlen
    · rcases hfr hpos with ⟨hframes, hnb, hcalg⟩
      rw [hframes]
      unfold restore_data_file_internal
      dsimp only
      rw [hnb, hcalg]
      rcases restore_loop_full env calg clevel bv n src hsrc hsane hcodec n 0 0 0
        (by omega) (le_refl 0) with ⟨blk2, hres⟩
      simp only [Nat.zero_mul, List.take_zero, Nat.zero_add] at hres
      rw [hres]
      dsimp only
      rw [show n * BLCKSZ = src.length from hsrc.symm, List.take_length]
  · rcases backup_data_file_page_valid
      ⟨env, readsFrom src, prev, .BACKUP_MODE_DIFF_PAGE, calg, clevel, cv, ptv, p0, true,
        none, mok⟩ fileB src n rfl rfl hB1 hB2 hB3 hB4 rfl rfl hsrc
      (hvalid fileB.segno) with ⟨r, hbk, hfr, hfr0⟩
    unfold roundTripOk
    rw [hbk]
    dsimp only
    rcases Nat.eq_zero_or_pos n with h0 | hpos
    · rw [hfr0 h0]
      have hlen : src.length = 0 := by rw [hsrc, h0]; ring
      exact List.length_eq_zero.mp hlen
    · rcases hfr hpos with ⟨hframes, hnb, hcalg⟩
      rw [hframes]
      unfold restore_data_file_internal
      dsimp only
      rw [hnb, hcalg]
      rcases restore_loop_full env calg clevel bv n src hsrc hsane hcodec n 0 0 0
        (by omega) (le_refl 0) with ⟨blk2, hres⟩
      simp only [Nat.zero_mul, List.take_zero, Nat.zero_add] at hres
      rw [hres]
      dsimp only
      rw [show n * BLCKSZ = src.length from hsrc.symm, List.take_length]

theorem validate_valid_of_sane (env : Env) (p : List Nat) (abs l0 : Nat)
    (hs : pageHeaderSane p = true) :
    validate_one_page env (some p) abs 0 l0 0 = (.PAGE_IS_VALID, pd_lsn p) := by
  simp only [validate_one_page, parse_page, hs]
  norm_num

theorem mkValidPage_length (x : Nat) : (mkValidPage x).length = BLCKSZ := by
  simp only [mkValidPage, le32, le16, List.length_append, List.length_cons,
    List.length_nil, List.length_replicate, BLCKSZ]

theorem pageAt_append_left (A B : List Nat) (hA : A.length = BLCKSZ) :
    pageAt (A ++ B) 0 = A := by
  unfold pageAt
  rw [Nat.zero_mul, List.drop_zero, List.take_append_of_le_length (le_of_eq hA.symm),
    take_BLCKSZ_self A hA]

theorem pageAt_append_right (A B : List Nat) (hA : A.length = BLCKSZ)
    (hB : B.length = BLCKSZ) : pageAt (A ++ B) 1 = B := by
  unfold pageAt
  rw [show (1 : Nat) * BLCKSZ = A.length from by rw [hA, Nat.one_mul], List.drop_left]
  exact take_BLCKSZ_self B hB

theorem pageAt_single (A : List Nat) (hA : A.length = BLCKSZ) : pageAt A 0 = A := by
  unfold pageAt
  rw [Nat.zero_mul, List.drop_zero]
  exact take_BLCKSZ_self A hA

theorem wSrc2_length : wSrc2.length = 2 * BLCKSZ := by
  unfold wSrc2
  rw [List.length_append, mkValidPage_length, mkValidPage_length]
  omega

theorem pageAt_wSrc2_0 : pageAt wSrc2 0 = mkValidPage 1 := by
  unfold wSrc2
  exact pageAt_append_left _ _ (mkValidPage_length 1)

theorem pageAt_wSrc2_1 : pageAt wSrc2 1 = mkValidPage 2 := by
  unfold wSrc2
  exact pageAt_append_right _ _ (mkValidPage_length 1) (mkValidPage_length 2)

theorem wSrc2_valid (s : Nat) : ∀ j, j < 2 → ∃ lsn,
    validate_one_page env0 (some (pageAt wSrc2 j)) (s * RELSEG_SIZE + j) 0 0 0 =
      (.PAGE_IS_VALID, lsn) := by
  intro j hj
  have hj2 : j = 0 ∨ j = 1 := by omega
  rcases hj2 with h | h <;> subst h
  · exact ⟨pd_lsn (mkValidPage 1), by
      rw [pageAt_wSrc2_0]
      exact validate_valid_of_sane env0 _ _ _ (by decide)⟩
  · exact ⟨pd_lsn (mkValidPage 2), by
      rw [pageAt_wSrc2_1]
      exact validate_valid_of_sane env0 _ _ _ (by decide)⟩

/-- Witness for C3_delta_skip at a concrete input: a valid page with lsn 1
below the parent start lsn 5 is skipped in DELTA mode. -/
theorem C3_delta_skip_witness :
    prepare_page env0 (fun _ => .rfull goodPage) true 5 .BACKUP_MODE_DIFF_DELTA true 0 0 0
      zeroPage = .SkipCurrentPage :=
  C3_delta_skip env0 (fun _ => .rfull goodPage) 5 0 0 0 zeroPage goodPage 1 rfl (by decide)
    (by decide) (by decide)

/-- Witness for C5_unchanged_detection at a concrete input. -/
theorem C5_unchanged_detection_witness :
    backup_data_file wArgsC5 wFileC5 =
      some ⟨{ wFileC5 with
              n_blocks := ((wFileC5.size / BLCKSZ : Nat) : Int)
              write_size := BYTES_INVALID },
            none, false, false⟩ :=
  C5_unchanged_detection wArgsC5 wFileC5 (Or.inl rfl) rfl rfl rfl

/-- Witness for C8_truncation_marker at a concrete input: a lone truncation
frame for block 1 replayed onto an empty destination. -/
theorem C8_truncation_marker_witness :
    restore_loop env0 .NONE_COMPRESS 0 0 [⟨1, -1, []⟩] ⟨0, 0, []⟩ =
      some ⟨1, 0, truncateTo (1 * BLCKSZ) []⟩ ∧
    (truncateTo (1 * BLCKSZ) ([] : List Nat)).length = 1 * BLCKSZ ∧
    (∀ (f : pgFile) (d0 : List Nat),
      restore_data_file_internal env0 f 0 0 [⟨1, -1, []⟩] d0 =
        some (truncateTo (1 * BLCKSZ) d0, 0)) :=
  C8_truncation_marker env0 .NONE_COMPRESS 0 0 1 [] [] ⟨0, 0, []⟩ (by decide)

/-- Witness for C6_frame_emission at a concrete input: a compressor that
returns 4 payload bytes for the page. -/
theorem C6_frame_emission_witness :
    (compress_and_backup_page envC 3 0 goodPage .PGLZ_COMPRESS 0).crc =
      envC.crc_comp true 0
        (frameBytes (compress_and_backup_page envC 3 0 goodPage .PGLZ_COMPRESS 0).frame) ∧
    (compress_and_backup_page envC 3 0 goodPage .PGLZ_COMPRESS 0).frame.block = 3 ∧
    (0 < (4 : Int) ∧ (4 : Int) < (BLCKSZ : Int) →
      (compress_and_backup_page envC 3 0 goodPage .PGLZ_COMPRESS 0).frame =
        ⟨3, (4 : Int), List.take (4 : Int).toNat [9, 9, 9, 9] ++
          padList envC (MAXALIGN (4 : Int).toNat - (4 : Int).toNat)⟩ ∧
      (compress_and_backup_page envC 3 0 goodPage .PGLZ_COMPRESS 0).write_buffer_size =
        8 + MAXALIGN (4 : Int).toNat) ∧
    (¬(0 < (4 : Int) ∧ (4 : Int) < (BLCKSZ : Int)) →
      (compress_and_backup_page envC 3 0 goodPage .PGLZ_COMPRESS 0).frame =
        ⟨3, (BLCKSZ : Int), goodPage⟩ ∧
      (compress_and_backup_page envC 3 0 goodPage .PGLZ_COMPRESS 0).write_buffer_size =
        8 + BLCKSZ) ∧
    (0 < (4 : Int) → (4 : Int) < (BLCKSZ : Int) →
      (4 : Int).toNat ≤ ([9, 9, 9, 9] : List Nat).length →
      (compress_and_backup_page envC 3 0 goodPage .PGLZ_COMPRESS 0).frame.payload.length =
        MAXALIGN (4 : Int).toNat) :=
  C6_frame_emission envC 3 0 goodPage .PGLZ_COMPRESS 0 4 [9, 9, 9, 9] rfl

/-- Witness for C7_frame_monotonicity at a concrete input: the two-block
FULL backup of wSrc2. -/
theorem C7_frame_monotonicity_witness :
    List.Pairwise (· < ·)
      ((framesFor env0 .NONE_COMPRESS 0 wSrc2 0 2).map fun x => x.block) := by
  rcases backup_data_file_full_valid wArgsFull wFileFull wSrc2 2 rfl rfl
      (by rw [wSrc2_length]; decide) rfl rfl rfl wSrc2_length
      (fun j hj => wSrc2_valid wFileFull.segno j hj) with ⟨r, hbk, hfr, -⟩
  rcases hfr (by omega) with ⟨hframes, -, -⟩
  exact C7_frame_monotonicity wArgsFull wFileFull r _ rfl hbk hframes

/-- Witness for C1_round_trip at a concrete input: the two-block source
wSrc2 of valid pages, backed up without compression in FULL mode and in
PAGE mode with a full pagemap, restores to itself. -/
theorem C1_round_trip_witness :
    roundTripOk ⟨env0, readsFrom wSrc2, 0, .BACKUP_MODE_FULL, .NONE_COMPRESS, 0, 0, 0, [],
      true, none, false⟩ 0 wFileFull wSrc2 ∧
    roundTripOk ⟨env0, readsFrom wSrc2, 0, .BACKUP_MODE_DIFF_PAGE, .NONE_COMPRESS, 0, 0, 0,
      [], true, none, false⟩ 0 wFilePage wSrc2 := by
  refine C1_round_trip env0 wSrc2 2 .NONE_COMPRESS 0 0 0 0 0 [] false wFileFull wFilePage
    wSrc2_length (fun s j hj => wSrc2_valid s j hj) ?_ ?_ rfl ?_ rfl ?_ rfl
  · intro p c o _ heq hpos _
    have h1 : (-1 : Int) = c := congrArg Prod.fst heq
    exact absurd hpos (by omega)
  · rw [wSrc2_length]
    decide
  · rw [wSrc2_length]
    decide
  · rfl
